import Mathlib

/-!
Parlay-A-Day: ticket lifecycle of `src/App.jsx`

A shallow embedding of the ticket operations of the React client
(`handleSelection`, `submitTicket`, `claimTicket`, `claimAllTickets`,
`cancelTicket`, `fetchLeaderboard`, the slip) and of the ticket list of
`src/UserProfileModal.jsx`, together with the Supabase tables they read and
write.

Conventions of the embedding

* JavaScript numbers are exact: token counts and wagers are integers, point
  amounts are rationals (so that `Math.pow(2, -1)` is `1/2`).
* A Supabase request either reports an error and changes nothing, or is
  applied; which of the two happens is an argument of the operation
  (`insertError`, `updateError`, `rpcError`, ...).
* The `user_picks` table is a list kept newest first, the order in which
  `fetchHistory` reads it (`order('created_at', { ascending: false })`).
* The handlers `submitTicket`, `claimTicket` and `cancelTicket` start the
  refreshes `fetchProfile()` / `fetchHistory()` after a successful operation
  and do not wait for them.  The client state in the result of a handler is
  the state once both refreshes have arrived without error.  The state in
  which a refresh reported an error, or has not arrived yet, is obtained from
  it by `staleClient`: that part of the cache is still what it was before the
  handler ran.
* An object used as a map (`selections`, the groups of picks, the scores) is
  the list of its entries in the order they were created; `objEntries` gives
  the order in which `Object.keys`, `Object.values` and `Object.entries`
  enumerate it.
-/

namespace Parlay

/-! ## Stored rows -/

/-- A row of the `matchups` table: `winning_option` is `null` (here `none`)
until the question is decided. -/
structure Matchup where
  id : String
  lock_time : Nat
  winning_option : Option String
  deriving DecidableEq

/-- A row of the `profiles` table. -/
structure Profile where
  id : String
  beta_tokens : Int
  points : ℚ
  deriving DecidableEq

/-- A row of the `user_picks` table: one leg of a ticket.  All legs of a ticket
carry the same `entry_group`. -/
structure PickRow where
  user_id : String
  matchup_id : String
  selected_option : Option String
  entry_group : String
  wager_amount : Option Int
  is_claimed : Bool
  deriving DecidableEq

/-- A pick as returned by `select('*, matchups(*)')`: the row together with the
matchup it references (`none` when the join finds no matchup). -/
structure Pick extends PickRow where
  matchups : Option Matchup
  deriving DecidableEq

/-- The tables held by the backend. -/
structure Server where
  profiles : List Profile
  user_picks : List PickRow
  matchups : List Matchup
  deriving DecidableEq

/-- The React state of `App` that the ticket operations read or write. -/
structure Client where
  session_user_id : String
  matchups : List Matchup
  selections : List (String × String)
  wagerAmount : Int
  userProfile : Option Profile
  activeEntries : List Pick
  currentTime : Nat
  deriving DecidableEq

/-- What an operation leaves behind: its visible outcome and both states. -/
structure Result (ω : Type) where
  outcome : ω
  client : Client
  server : Server

/-! ## Reads -/

/-- The embedded resource `matchups(*)` of a pick: the matchup whose id is the
row's `matchup_id`. -/
def joinPick (s : Server) (r : PickRow) : Pick :=
  { toPickRow := r, matchups := s.matchups.find? (fun m => m.id == r.matchup_id) }

/-- The `fetchProfile` read when the request itself goes through:
`.eq('id', session.user.id).single()` succeeds when exactly one row matches,
otherwise the cached profile is kept.  The read with a request that may report
an error is `tryFetchProfile`. -/
def fetchProfile (c : Client) (s : Server) : Client :=
  match s.profiles.filter (fun q => q.id == c.session_user_id) with
  | [p] => { c with userProfile := some p }
  | _ => c

/-- The `fetchHistory` read when the request goes through: the caller's picks,
newest first, each with its matchup.  The read with a request that may report
an error is `tryFetchHistory`. -/
def fetchHistory (c : Client) (s : Server) : Client :=
  { c with activeEntries :=
      (s.user_picks.filter (fun r => r.user_id == c.session_user_id)).map (joinPick s) }

/-- The `fetchProfile` function with its error branch (lines 87-90): on an error
it logs and returns, and the cached profile stays as it was. -/
def tryFetchProfile (error : Bool) (c : Client) (s : Server) : Client :=
  if error then c else fetchProfile c s

/-- The `fetchHistory` function with its error branch (lines 120-124): on an
error it logs, and the cached history stays as it was. -/
def tryFetchHistory (error : Bool) (c : Client) (s : Server) : Client :=
  if error then c else fetchHistory c s

/-- The client left by a handler whose refreshes did not both arrive.  `before`
is the client when the handler started, `after` the client in the handler's
result, in which both refreshes have arrived.  With `profileError` the profile
refresh reported an error or has not answered yet, so the cached profile is
still that of `before`; with `historyError` the same holds for the cached
history.  Everything else the handler set (`selections`, `wagerAmount`) is kept. -/
def staleClient (profileError historyError : Bool) (before after : Client) : Client :=
  { after with
    userProfile := if profileError then before.userProfile else after.userProfile
    activeEntries := if historyError then before.activeEntries else after.activeEntries }

/-- A sign-in on a device whose `App` still holds the state `c` of an earlier
session (`handleSignOut`, lines 224-227, clears none of it): `setSession`
(lines 49-51), after which the effect of lines 64-70 starts `fetchProfile` and
`fetchHistory` for the new user.  `profileError` and `historyError` tell whether
these reads report an error.  The `fetchMatchups` of the same effect is not
modelled. -/
def signIn (profileError historyError : Bool) (uid : String) (c : Client) (s : Server) :
    Client :=
  tryFetchHistory historyError
    (tryFetchProfile profileError { c with session_user_id := uid } s) s

/-! ## Selection -/

/-- The `handleSelection` handler: toggles the option chosen for a matchup of
today, unless the matchup is unknown or locked. -/
def handleSelection (c : Client) (matchupId option : String) : Client :=
  match c.matchups.find? (fun m => m.id == matchupId) with
  | none => c
  | some matchup =>
    if c.currentTime ≥ matchup.lock_time then c
    else
      { c with selections :=
          if c.selections.lookup matchupId == some option then
            c.selections.filter (fun kv => kv.1 != matchupId)
          else if (c.selections.lookup matchupId).isSome then
            c.selections.map (fun kv => if kv.1 == matchupId then (kv.1, option) else kv)
          else c.selections ++ [(matchupId, option)] }

/-! ## JavaScript objects used as maps

An object with string keys is the list of its own properties in the order they
were created.  `Object.keys`, `Object.values` and `Object.entries` list the keys
that are array indices first, in increasing numeric order, and then the other
keys in creation order.  Keys are assumed not to be names inherited from
`Object.prototype`. -/

/-- The number spelled by a string of decimal digits. -/
def keyNat (k : String) : Nat :=
  k.data.foldl (fun n ch => n * 10 + (ch.toNat - 48)) 0

/-- Whether a property key is an array index: the canonical decimal form of an
integer below `2^32 - 1`. -/
def isArrayIndex (k : String) : Bool :=
  !k.data.isEmpty && k.data.all Char.isDigit
    && (k.data.length == 1 || k.data.head? != some '0')
    && decide (keyNat k < 4294967295)

/-- The order in which `Object.entries` (and `Object.keys`, `Object.values`)
lists the properties of an object. -/
def objEntries {α : Type} (o : List (String × α)) : List (String × α) :=
  (o.filter (fun kv => isArrayIndex kv.1)).insertionSort
      (fun a b => keyNat a.1 ≤ keyNat b.1)
    ++ o.filter (fun kv => !isArrayIndex kv.1)

/-- The assignment `o[k] = v`: an existing property keeps its place, a new one
is created last. -/
def objSet {α : Type} (o : List (String × α)) (k : String) (v : α) : List (String × α) :=
  if (o.lookup k).isSome then o.map (fun kv => if kv.1 == k then (kv.1, v) else kv)
  else o ++ [(k, v)]

/-! ## Ticket creation -/

/-- The ways `submitTicket` ends, one per toast. -/
inductive SubmitOutcome where
  | emptySelection
  | insufficientTokens
  | insertFailed
  | deductionFailed
  | submitted
  deriving DecidableEq

/-- The `picks` array built by `submitTicket`: one row per entry of
`selections`, in the order of `Object.keys(selections)`. -/
def newPicks (c : Client) (entryGroup : String) : List PickRow :=
  (objEntries c.selections).map (fun kv =>
    { user_id := c.session_user_id
      matchup_id := kv.1
      selected_option := some kv.2
      entry_group := entryGroup
      wager_amount := some c.wagerAmount
      is_claimed := false })

/-- The profile update `.update({ beta_tokens: v }).eq('id', uid)`. -/
def setTokens (s : Server) (uid : String) (v : Int) : Server :=
  { s with profiles := s.profiles.map (fun q => if q.id == uid then { q with beta_tokens := v } else q) }

/-- The `submitTicket` handler.  `now` is the value of `Date.now()`,
`insertError` and `updateError` tell whether the insert into `user_picks` and
the update of `profiles` report an error.  The client of a successful result is
the one in which the two refreshes of lines 294-295 have arrived; see
`staleClient` for the one in which they have not. -/
def submitTicket (now : Nat) (insertError updateError : Bool) (c : Client) (s : Server) :
    Result SubmitOutcome :=
  if c.selections.length = 0 then ⟨.emptySelection, c, s⟩
  else
    match c.userProfile with
    | none => ⟨.insufficientTokens, c, s⟩
    | some userProfile =>
      if userProfile.beta_tokens < c.wagerAmount then ⟨.insufficientTokens, c, s⟩
      else
        let entryGroup := toString now
        let picks := newPicks c entryGroup
        if insertError then ⟨.insertFailed, c, s⟩
        else
          let s1 : Server := { s with user_picks := picks ++ s.user_picks }
          if updateError then ⟨.deductionFailed, c, s1⟩
          else
            let s2 := setTokens s1 c.session_user_id (userProfile.beta_tokens - c.wagerAmount)
            let c1 : Client := { c with selections := [], wagerAmount := 1 }
            ⟨.submitted, fetchHistory (fetchProfile c1 s2) s2, s2⟩

/-! ## Claim -/

/-- JavaScript `x || 1` for a number that may be missing: `0`, `null` and
`undefined` give `1`. -/
def orOne : Option Int → Int
  | some w => if w = 0 then 1 else w
  | none => 1

/-- The test `p.matchups?.winning_option === p.selected_option`: with no matchup
the left side is `undefined`, which equals neither `null` nor a string. -/
def legWins (p : Pick) : Bool :=
  match p.matchups with
  | none => false
  | some m => m.winning_option == p.selected_option

/-- The expression `100 * Math.pow(2, picks.length - 1)`. -/
def basePoints (len : Nat) : ℚ :=
  100 * 2 ^ ((len : ℤ) - 1)

/-- The arguments of the `claim_parlay` remote procedure call. -/
structure ClaimRequest where
  p_entry_group : String
  p_user_id : String
  p_points_won : ℚ
  p_tokens_return : Int
  deriving DecidableEq

/-- The picks of a ticket as `claimTicket` and `cancelTicket` select them:
`activeEntries.filter((p) => p.entry_group === entryGroup)`. -/
def ticketPicks (c : Client) (entryGroup : String) : List Pick :=
  c.activeEntries.filter (fun p => p.entry_group == entryGroup)

/-- The wager read off a ticket: `picks[0]?.wager_amount || 1`. -/
def ticketWager (picks : List Pick) : Int :=
  orOne (picks.head?.bind (fun p => p.wager_amount))

/-- The request `claimTicket` sends (lines 305-323): the wager of the first
pick, and the points when every leg wins. -/
def claimRequest (c : Client) (entryGroup : String) : ClaimRequest :=
  let picks := ticketPicks c entryGroup
  let wager := ticketWager picks
  let allWin := picks.all legWins
  let pointsToAdd : ℚ := if allWin then basePoints picks.length * (wager : ℚ) else 0
  { p_entry_group := entryGroup
    p_user_id := c.session_user_id
    p_points_won := pointsToAdd
    p_tokens_return := wager }

/-- Modelled from the spec: what an accepted `claim_parlay` call does to one
row of `user_picks`: the picks of the caller's ticket become claimed. -/
def claimRow (r : ClaimRequest) (row : PickRow) : PickRow :=
  if row.entry_group == r.p_entry_group && row.user_id == r.p_user_id then
    { row with is_claimed := true }
  else row

/-- Modelled from the spec: the effect of an accepted `claim_parlay` call.  The
procedure runs on the backend and its body is not among the source files; per
the spec a claim credits the tokens back, credits the points, and flips the
ticket to a settled state, all in one step. -/
def claim_parlay (s : Server) (r : ClaimRequest) : Server :=
  { s with
    user_picks := s.user_picks.map (claimRow r)
    profiles := s.profiles.map (fun q =>
      if q.id == r.p_user_id then
        { q with beta_tokens := q.beta_tokens + r.p_tokens_return
                 points := q.points + r.p_points_won }
      else q) }

/-- The ways `claimTicket` ends, one per toast. -/
inductive ClaimOutcome where
  | claimFailed
  | won
  | lost
  deriving DecidableEq

/-- The `claimTicket` handler.  `rpcError` tells whether `claim_parlay` reports
an error. -/
def claimTicket (rpcError : Bool) (c : Client) (s : Server) (entryGroup : String) :
    Result ClaimOutcome :=
  let req := claimRequest c entryGroup
  if rpcError then ⟨.claimFailed, c, s⟩
  else
    let s1 := claim_parlay s req
    ⟨if (ticketPicks c entryGroup).all legWins then .won else .lost,
      fetchHistory (fetchProfile c s1) s1, s1⟩

/-! ## Cancel -/

/-- The ways `cancelTicket` ends: the user declines the dialog, the update of
`user_picks` fails, reading `userProfile.beta_tokens` throws because there is no
cached profile, the update of `profiles` fails, or the ticket is unlocked. -/
inductive CancelOutcome where
  | declined
  | unlockFailed
  | threw
  | returnFailed
  | unlocked
  deriving DecidableEq

/-- What `.update({ is_claimed: true }).eq('entry_group', entryGroup)` does to
one row of `user_picks`. -/
def voidRow (entryGroup : String) (row : PickRow) : PickRow :=
  if row.entry_group == entryGroup then { row with is_claimed := true } else row

/-- The update `.update({ is_claimed: true }).eq('entry_group', entryGroup)`. -/
def markClaimed (s : Server) (entryGroup : String) : Server :=
  { s with user_picks := s.user_picks.map (voidRow entryGroup) }

/-- The `cancelTicket` handler.  `confirmed` is the answer to the `confirm`
dialog, `updateError` and `profileError` tell whether the update of `user_picks`
and the update of `profiles` report an error. -/
def cancelTicket (confirmed updateError profileError : Bool) (c : Client) (s : Server)
    (entryGroup : String) : Result CancelOutcome :=
  if !confirmed then ⟨.declined, c, s⟩
  else
    let picks := ticketPicks c entryGroup
    let wager := ticketWager picks
    if updateError then ⟨.unlockFailed, c, s⟩
    else
      let s1 := markClaimed s entryGroup
      match c.userProfile with
      | none => ⟨.threw, c, s1⟩
      | some userProfile =>
        if profileError then ⟨.returnFailed, c, s1⟩
        else
          let s2 := setTokens s1 c.session_user_id (userProfile.beta_tokens + wager)
          ⟨.unlocked, fetchHistory (fetchProfile c s2) s2, s2⟩

/-! ## Observations -/

/-- The token balance stored for a user, if the user has a profile row. -/
def tokensOf (s : Server) (uid : String) : Option Int :=
  (s.profiles.find? (fun q => q.id == uid)).map (fun q => q.beta_tokens)

/-! ## Sample states -/

/-- Five decided matchups, each won by option A. -/
def fiveMatchups : List Matchup :=
  [⟨"m1", 100, some "A"⟩, ⟨"m2", 100, some "A"⟩, ⟨"m3", 100, some "A"⟩,
   ⟨"m4", 100, some "A"⟩, ⟨"m5", 100, some "A"⟩]

/-- A client of user `u1` whose history is the given picks. -/
def clientWith (entries : List Pick) : Client :=
  { session_user_id := "u1"
    matchups := []
    selections := []
    wagerAmount := 1
    userProfile := some ⟨"u1", 0, 0⟩
    activeEntries := entries
    currentTime := 500 }

/-- A ticket `1000` of five legs at wager 5, every leg on option A. -/
def fiveLegClient : Client :=
  clientWith (fiveMatchups.map (fun m =>
    { user_id := "u1", matchup_id := m.id, selected_option := some "A",
      entry_group := "1000", wager_amount := some 5, is_claimed := false,
      matchups := some m }))

/-- A ticket `2000` of two legs at wager 3 whose second leg picked the losing
option B. -/
def lostTicketClient : Client :=
  clientWith
    [ { user_id := "u1", matchup_id := "m1", selected_option := some "A",
        entry_group := "2000", wager_amount := some 3, is_claimed := false,
        matchups := some ⟨"m1", 100, some "A"⟩ },
      { user_id := "u1", matchup_id := "m2", selected_option := some "B",
        entry_group := "2000", wager_amount := some 3, is_claimed := false,
        matchups := some ⟨"m2", 100, some "A"⟩ } ]

/-- A backend with two users, three undecided matchups locking at time 100 and
one older claimed pick of `u1`. -/
def sampleServer : Server :=
  { profiles := [⟨"u1", 5, 0⟩, ⟨"u2", 3, 0⟩]
    user_picks :=
      [ { user_id := "u1", matchup_id := "m0", selected_option := some "A",
          entry_group := "900", wager_amount := some 1, is_claimed := true } ]
    matchups := [⟨"m1", 100, none⟩, ⟨"m2", 100, none⟩, ⟨"m3", 100, none⟩] }

/-- User `u1` with 5 tokens, at time 50, about to submit three legs at wager
2. -/
def sampleClient : Client :=
  { session_user_id := "u1"
    matchups := [⟨"m1", 100, none⟩, ⟨"m2", 100, none⟩, ⟨"m3", 100, none⟩]
    selections := [("m1", "A"), ("m2", "B"), ("m3", "A")]
    wagerAmount := 2
    userProfile := some ⟨"u1", 5, 0⟩
    activeEntries := []
    currentTime := 50 }

/-- The sample client with a single token left and the wager still 2. -/
def poorClient : Client :=
  { sampleClient with userProfile := some ⟨"u1", 1, 0⟩ }

/-- The sample client with nothing selected. -/
def idleClient : Client :=
  { sampleClient with selections := [] }

/-- The idle client after option A of `m1` was picked at time 50, before the
lock at time 100, and the clock then moved on to time 200. -/
def lateClient : Client :=
  { handleSelection idleClient "m1" "A" with currentTime := 200 }

/-- The sample ticket once submitted at time 1000 with both requests applied. -/
def openTicket : Result SubmitOutcome :=
  submitTicket 1000 false false sampleClient sampleServer

/-- The three sample matchups decided the way the sample ticket picked them. -/
def decidedMatchups : List Matchup :=
  [⟨"m1", 100, some "A"⟩, ⟨"m2", 100, some "B"⟩, ⟨"m3", 100, some "A"⟩]

/-- The backend holding the open sample ticket after its three questions were
decided in the ticket's favour. -/
def decidedServer : Server :=
  { openTicket.server with matchups := decidedMatchups }

/-- The client of the open sample ticket after reading its history from the
backend with the decided questions. -/
def readyClient : Client :=
  fetchHistory openTicket.client decidedServer

/-- The sample ticket claimed once, successfully, after its three questions
were decided in its favour and the history was read again. -/
def firstClaim : Result ClaimOutcome :=
  claimTicket false readyClient decidedServer "1000"

/-- The sample ticket cancelled while still open, both requests applied. -/
def voidedTicket : Result CancelOutcome :=
  cancelTicket true false false openTicket.client openTicket.server "1000"

/-- The client of the cancelled sample ticket after the three questions were
decided in the ticket's favour and the history was read again. -/
def voidedThenDecided : Client :=
  fetchHistory voidedTicket.client { voidedTicket.server with matchups := decidedMatchups }

/-- The cancelled sample ticket cancelled a second time, both requests
applied. -/
def voidedAgain : Result CancelOutcome :=
  cancelTicket true false false voidedTicket.client voidedTicket.server "1000"

/-- The points stored for a user, if the user has a profile row. -/
def pointsOf (s : Server) (uid : String) : Option ℚ :=
  (s.profiles.find? (fun q => q.id == uid)).map (fun q => q.points)

/-! ## Grouping picks into tickets -/

/-- One step of the `reduce` that groups picks:
`if (!acc[g]) acc[g] = []; acc[g].push(pick)` with `g = pick.entry_group`. -/
def groupStep (acc : List (String × List Pick)) (pick : Pick) : List (String × List Pick) :=
  if (acc.lookup pick.entry_group).isSome then
    acc.map (fun kv => if kv.1 == pick.entry_group then (kv.1, kv.2 ++ [pick]) else kv)
  else acc ++ [(pick.entry_group, [pick])]

/-- The object `grouped` / `groupedHistory` / `groupedPicks`: the picks keyed by
`entry_group`. -/
def groupByEntry (picks : List Pick) : List (String × List Pick) :=
  picks.foldl groupStep []

/-- The test `p.matchups?.winning_option !== null`: with no matchup the left
side is `undefined`, which is not `null`. -/
def legSettled (p : Pick) : Bool :=
  match p.matchups with
  | none => true
  | some m => m.winning_option.isSome

/-- The test `picks.every((p) => p.matchups?.winning_option !== null)`, named
`allSettled` where the source names it. -/
def allSettled (picks : List Pick) : Bool :=
  picks.all legSettled

/-- The value `picks[0].is_claimed` of a group.  A group is created with its
first pick, so it is never empty; for the empty list, where the source would
throw, the value is `false`. -/
def firstClaimed (picks : List Pick) : Bool :=
  match picks.head? with
  | some p => p.is_claimed
  | none => false

/-! ## Claim all -/

/-- The `readyGroups` of `claimAllTickets`: the groups of the history whose first
pick is unclaimed and whose legs all pass the settled test. -/
def readyGroups (c : Client) : List (String × List Pick) :=
  (objEntries (groupByEntry c.activeEntries)).filter
    (fun kv => !firstClaimed kv.2 && allSettled kv.2)

/-- The ways `claimAllTickets` ends. -/
inductive ClaimAllOutcome where
  | nothingReady
  | processed
  deriving DecidableEq

/-- What `claimAllTickets` leaves behind: the `claim_parlay` calls it made, in
order, and both states. -/
structure ClaimAllResult where
  outcome : ClaimAllOutcome
  attempts : List ClaimRequest
  client : Client
  server : Server

/-- One turn of the loop `for (const [group, _] of readyGroups) await
claimTicket(group)`.  The `claimTicket` called is the one of the render in which
the loop started, so it reads the history `c` of that render. -/
def claimAllStep (rpcError : String → Bool) (c : Client) (acc : ClaimAllResult)
    (kv : String × List Pick) : ClaimAllResult :=
  { outcome := .processed
    attempts := acc.attempts ++ [claimRequest c kv.1]
    client :=
      if rpcError kv.1 then acc.client
      else (claimTicket (rpcError kv.1) c acc.server kv.1).client
    server := (claimTicket (rpcError kv.1) c acc.server kv.1).server }

/-- The `claimAllTickets` handler.  `rpcError g` tells whether the `claim_parlay`
call for group `g` reports an error. -/
def claimAllTickets (rpcError : String → Bool) (c : Client) (s : Server) : ClaimAllResult :=
  if (readyGroups c).length = 0 then ⟨.nothingReady, [], c, s⟩
  else (readyGroups c).foldl (claimAllStep rpcError c) ⟨.processed, [], c, s⟩

/-! ## Leaderboard -/

/-- A row of the roster query `select('id, username, points')`; the stored
points are read but not used. -/
structure RosterRow where
  id : String
  username : Option String
  deriving DecidableEq

/-- An entry of the leaderboard. -/
structure Score where
  username : String
  points : ℚ
  id : String
  deriving DecidableEq

/-- The expression `p.username || 'Anonymous'`. -/
def displayName : Option String → String
  | some n => if n = "" then "Anonymous" else n
  | none => "Anonymous"

/-- The object `userScores` after `profiles.forEach`: one entry per profile id,
with 0 points. -/
def initScores (profiles : List RosterRow) : List (String × Score) :=
  profiles.foldl
    (fun acc p => objSet acc p.id { username := displayName p.username, points := 0, id := p.id })
    []

/-- The body of `Object.values(grouped).forEach`: a group whose legs all win adds
its payout to the entry of the user of its first pick, if that user has an
entry.  (For the empty list, where the source would throw, nothing changes.) -/
def scoreGroup (scores : List (String × Score)) (group : List Pick) : List (String × Score) :=
  match group.head? with
  | none => scores
  | some first =>
    if group.all legWins && (scores.lookup first.user_id).isSome then
      scores.map (fun kv =>
        if kv.1 == first.user_id then
          (kv.1, { kv.2 with
            points := kv.2.points + basePoints group.length * (ticketWager group : ℚ) })
        else kv)
    else scores

/-- The object `userScores` after every group was scored. -/
def scoredUsers (profiles : List RosterRow) (picks : List Pick) : List (String × Score) :=
  ((objEntries (groupByEntry picks)).map (fun kv => kv.2)).foldl scoreGroup
    (initScores profiles)

/-- The computation of `fetchLeaderboard` (lines 162-196) on the two query
results: `Object.values(userScores).sort((a, b) => b.points - a.points)`, the
sort being stable. -/
def fetchLeaderboard (profiles : List RosterRow) (picks : List Pick) : List Score :=
  ((objEntries (scoredUsers profiles picks)).map (fun kv => kv.2)).insertionSort
    (fun a b => a.points ≥ b.points)

/-- The picks query of `fetchLeaderboard`:
`.gte('created_at', dateFilter).eq('is_claimed', true)`.  The `created_at` column
is not modelled; `inWindow` stands for the date test. -/
def leaderboardPicks (inWindow : PickRow → Bool) (s : Server) : List Pick :=
  (s.user_picks.filter (fun r => inWindow r && r.is_claimed)).map (joinPick s)

/-- The roster query of `fetchLeaderboard`.  The `username` column is not
modelled, so every row comes without a name. -/
def rosterOf (s : Server) : List RosterRow :=
  s.profiles.map (fun q => { id := q.id, username := none })

/-- A history of four tickets whose picks all carry their matchup: `5000` with
two decided legs and unclaimed, `6000` undecided, `7000` decided but already
claimed, `8000` decided and unclaimed. -/
def historyClient : Client :=
  clientWith
    [ { user_id := "u1", matchup_id := "m1", selected_option := some "A",
        entry_group := "5000", wager_amount := some 1, is_claimed := false,
        matchups := some ⟨"m1", 100, some "A"⟩ },
      { user_id := "u1", matchup_id := "m3", selected_option := some "A",
        entry_group := "6000", wager_amount := some 1, is_claimed := false,
        matchups := some ⟨"m3", 100, none⟩ },
      { user_id := "u1", matchup_id := "m2", selected_option := some "B",
        entry_group := "5000", wager_amount := some 1, is_claimed := false,
        matchups := some ⟨"m2", 100, some "A"⟩ },
      { user_id := "u1", matchup_id := "m1", selected_option := some "A",
        entry_group := "7000", wager_amount := some 2, is_claimed := true,
        matchups := some ⟨"m1", 100, some "A"⟩ },
      { user_id := "u1", matchup_id := "m2", selected_option := some "A",
        entry_group := "8000", wager_amount := some 3, is_claimed := false,
        matchups := some ⟨"m2", 100, some "A"⟩ } ]

/-- A history with one unclaimed ticket `3000` whose only pick came back without
its matchup record. -/
def orphanClient : Client :=
  clientWith
    [ { user_id := "u1", matchup_id := "m9", selected_option := some "A",
        entry_group := "3000", wager_amount := some 1, is_claimed := false,
        matchups := none } ]

/-- A roster of three users with ordinary ids. -/
def sampleRoster : List RosterRow :=
  [⟨"ub", none⟩, ⟨"ua", some "Ann"⟩, ⟨"uc", none⟩]

/-- Claimed picks of the window: a winning one-leg ticket of `uc` and a losing
one-leg ticket of `ua`. -/
def samplePicks : List Pick :=
  [ { user_id := "uc", matchup_id := "m1", selected_option := some "A",
      entry_group := "1700000000001", wager_amount := some 1, is_claimed := true,
      matchups := some ⟨"m1", 100, some "A"⟩ },
    { user_id := "ua", matchup_id := "m1", selected_option := some "B",
      entry_group := "1700000000002", wager_amount := some 1, is_claimed := true,
      matchups := some ⟨"m1", 100, some "A"⟩ } ]

/-- The backend of the cancelled sample ticket after its three questions were
decided in the ticket's favour. -/
def voidedDecidedServer : Server :=
  { voidedTicket.server with matchups := decidedMatchups }

/-- A backend with two users of 5 tokens each and one open question. -/
def twinServer : Server :=
  { profiles := [⟨"ua", 5, 0⟩, ⟨"ub", 5, 0⟩]
    user_picks := []
    matchups := [⟨"m1", 100, none⟩] }

/-- A client of the given user about to submit option A of `m1` at wager 1. -/
def twinClient (uid : String) : Client :=
  { session_user_id := uid
    matchups := [⟨"m1", 100, none⟩]
    selections := [("m1", "A")]
    wagerAmount := 1
    userProfile := some ⟨uid, 5, 0⟩
    activeEntries := []
    currentTime := 50 }

/-- User `ua` submits at the millisecond 1700000000000. -/
def twinSubmitA : Result SubmitOutcome :=
  submitTicket 1700000000000 false false (twinClient "ua") twinServer

/-- User `ub` submits in the same millisecond. -/
def twinSubmitB : Result SubmitOutcome :=
  submitTicket 1700000000000 false false (twinClient "ub") twinSubmitA.server

/-- The question is decided for option A. -/
def twinDecided : Server :=
  { twinSubmitB.server with matchups := [⟨"m1", 100, some "A"⟩] }

/-- User `ua` claims the ticket, the call being accepted. -/
def twinClaimA : Result ClaimOutcome :=
  claimTicket false (fetchHistory twinSubmitA.client twinDecided) twinDecided "1700000000000"

/-- User `ub` claims the ticket, the call being accepted. -/
def twinClaimB : Result ClaimOutcome :=
  claimTicket false (fetchHistory twinSubmitB.client twinClaimA.server) twinClaimA.server
    "1700000000000"

/-! ## The slip -/

/-- The wagers offered on the slip: `[1, 2, 3, 4, 5].map((w) => <button ...>)`. -/
def wagerChoices : List Int := [1, 2, 3, 4, 5]

/-- A press on the wager button `w`: `setWagerAmount(w)`, unless the button is
disabled (`!userProfile || userProfile.beta_tokens < w`).  There is a button
only for the five choices. -/
def pressWager (c : Client) (w : Int) : Client :=
  if wagerChoices.contains w then
    match c.userProfile with
    | none => c
    | some userProfile => if userProfile.beta_tokens < w then c else { c with wagerAmount := w }
  else c

/-- The value `potentialWin` shown on the slip (lines 421-423). -/
def potentialWin (c : Client) : ℚ :=
  if c.selections.length > 0 then
    100 * 2 ^ ((c.selections.length : ℤ) - 1) * (c.wagerAmount : ℚ)
  else 0

/-- The React state when `App` is first rendered for a signed-in user:
`useState([])`, `useState({})`, `useState(1)`, `useState(null)`,
`useState(new Date())`. -/
def initialClient (uid : String) (t : Nat) : Client :=
  { session_user_id := uid
    matchups := []
    selections := []
    wagerAmount := 1
    userProfile := none
    activeEntries := []
    currentTime := t }

/-! ## Profile modal -/

/-- A ticket as `UserProfileModal` records it. -/
structure ModalTicket where
  group : String
  picks : List Pick
  payout : ℚ
  won : Bool

/-- The body of `Object.entries(groupedPicks).forEach` in `UserProfileModal`
(lines 54-78): a group that passes the settled test becomes a ticket with its
payout, filed under wins or losses by `won`; other groups are skipped. -/
def modalTicket (group : String) (picks : List Pick) : Option ModalTicket :=
  if allSettled picks then
    some { group := group
           picks := picks
           payout := basePoints picks.length * (ticketWager picks : ℚ)
           won := picks.all legWins }
  else none

/-! ## Sessions -/

/-- What can happen to a signed-in client and its backend: the handlers of
`App`, the state setters driven by the timer and the fetches, and a change of
the tables made by somebody else. -/
inductive Action where
  | select (matchupId option : String)
  | wager (w : Int)
  | tick (t : Nat)
  | setMatchups (ms : List Matchup)
  | refresh
  | submit (now : Nat) (insertError updateError : Bool)
  | claim (rpcError : Bool) (entryGroup : String)
  | claimAll (rpcError : String → Bool)
  | cancel (confirmed updateError profileError : Bool) (entryGroup : String)
  | backend (s : Server)

/-- The effect of one action on the client and the backend. -/
def act (a : Action) (st : Client × Server) : Client × Server :=
  match a with
  | .select matchupId option => (handleSelection st.1 matchupId option, st.2)
  | .wager w => (pressWager st.1 w, st.2)
  | .tick t => ({ st.1 with currentTime := t }, st.2)
  | .setMatchups ms => ({ st.1 with matchups := ms }, st.2)
  | .refresh => (fetchHistory (fetchProfile st.1 st.2) st.2, st.2)
  | .submit now insertError updateError =>
    ((submitTicket now insertError updateError st.1 st.2).client,
      (submitTicket now insertError updateError st.1 st.2).server)
  | .claim rpcError entryGroup =>
    ((claimTicket rpcError st.1 st.2 entryGroup).client,
      (claimTicket rpcError st.1 st.2 entryGroup).server)
  | .claimAll rpcError =>
    ((claimAllTickets rpcError st.1 st.2).client, (claimAllTickets rpcError st.1 st.2).server)
  | .cancel confirmed updateError profileError entryGroup =>
    ((cancelTicket confirmed updateError profileError st.1 st.2 entryGroup).client,
      (cancelTicket confirmed updateError profileError st.1 st.2 entryGroup).server)
  | .backend s => (st.1, s)

/-- A session: the actions applied one after the other. -/
def run (actions : List Action) (st : Client × Server) : Client × Server :=
  actions.foldl (fun st a => act a st) st

/-! ## Overlapping cancels -/

/-- The two writes a confirmed `cancelTicket` call sends: the update of
`user_picks` and the update of `profiles`. -/
inductive CancelWrite where
  | mark
  | refund
  deriving DecidableEq

/-- One write of a `cancelTicket` call that was started on the client state `c`
with cached profile `userProfile`, applied to the backend. -/
def applyCancelWrite (c : Client) (entryGroup : String) (userProfile : Profile) (s : Server)
    (w : CancelWrite) : Server :=
  match w with
  | .mark => markClaimed s entryGroup
  | .refund =>
    setTokens s c.session_user_id
      (userProfile.beta_tokens + ticketWager (ticketPicks c entryGroup))

/-- The writes of any number of `cancelTicket` calls, all started on the same
client state, in the order in which they reach the backend. -/
def applyCancelWrites (c : Client) (entryGroup : String) (userProfile : Profile)
    (ws : List CancelWrite) (s : Server) : Server :=
  ws.foldl (applyCancelWrite c entryGroup userProfile) s

/-- The part of the client state that makes up the slip: the selections and the
wager. -/
def slipOf (c : Client) : List (String × String) × Int :=
  (c.selections, c.wagerAmount)

/-- A session of `u1` from the first render: the data is loaded, option A of
`m1` and option B of `m2` are selected, `m1` is switched to option B, and the
wager button 2 is pressed. -/
def sampleSession : List Action :=
  [.refresh, .setMatchups sampleServer.matchups, .tick 60, .select "m1" "A",
    .select "m2" "B", .select "m1" "B", .wager 2]

/-- The backend once writes of overlapping cancels have arrived: `marked` tells
whether an update of `user_picks` is among them, `refunded` whether an update of
`profiles` is. -/
def afterCancelWrites (c : Client) (entryGroup : String) (userProfile : Profile) (s : Server)
    (marked refunded : Bool) : Server :=
  { profiles :=
      if refunded then
        (setTokens s c.session_user_id
          (userProfile.beta_tokens + ticketWager (ticketPicks c entryGroup))).profiles
      else s.profiles
    user_picks := if marked then (markClaimed s entryGroup).user_picks else s.user_picks
    matchups := s.matchups }

/-! ## States with a stale cache -/

/-- The client of the open sample ticket when the history refresh started by
`submitTicket` has arrived and the profile refresh has reported an error: the
history shows the new ticket, the cached profile still says 5 tokens. -/
def staleProfileClient : Client :=
  staleClient true false sampleClient openTicket.client

/-- User `u2` signs in on the device that holds `readyClient`, the state of `u1`
with the decided sample ticket; the profile read goes through, the history read
reports an error. -/
def borrowedClient : Client :=
  signIn false true "u2" readyClient decidedServer

/-- A backend whose only pick, of ticket `3000`, references a matchup `m9` that
the `matchups` table does not hold; `u1` has 4 tokens. -/
def orphanServer : Server :=
  { profiles := [⟨"u1", 4, 0⟩]
    user_picks :=
      [ { user_id := "u1", matchup_id := "m9", selected_option := some "A",
          entry_group := "3000", wager_amount := some 1, is_claimed := false } ]
    matchups := [] }

/-- The sample history of four tickets together with the ticket `3000` whose
pick has no matchup record. -/
def mixedHistoryClient : Client :=
  clientWith (orphanClient.activeEntries ++ historyClient.activeEntries)

/-- The picks query of `UserProfileModal` (lines 29-35): the claimed picks of
the user, each with its matchup. -/
def modalPicks (s : Server) (userId : String) : List Pick :=
  (s.user_picks.filter (fun r => r.user_id == userId && r.is_claimed)).map (joinPick s)

/-! ## Helper lemmas -/

theorem objEntries_perm {α : Type} (o : List (String × α)) : (objEntries o).Perm o := by
  unfold objEntries
  exact ((List.perm_insertionSort _ _).append_right _).trans
    (List.filter_append_perm (fun kv => isArrayIndex kv.1) o)

theorem mem_objEntries {α : Type} (o : List (String × α)) (kv : String × α) :
    kv ∈ objEntries o ↔ kv ∈ o :=
  (objEntries_perm o).mem_iff

theorem objEntries_length {α : Type} (o : List (String × α)) :
    (objEntries o).length = o.length :=
  (objEntries_perm o).length_eq

theorem objEntries_ne_nil {α : Type} (o : List (String × α)) (h : o ≠ []) :
    objEntries o ≠ [] := by
  intro h2
  have := objEntries_length o
  rw [h2] at this
  exact h (List.length_eq_zero.1 this.symm)

theorem orOne_some_of_ne_zero (w : Int) (h : w ≠ 0) : orOne (some w) = w := by
  simp [orOne, h]

theorem basePoints_of_pos (len : Nat) (h : 1 ≤ len) :
    basePoints len = 100 * 2 ^ (len - 1) := by
  unfold basePoints
  have e : ((len : ℤ) - 1) = ((len - 1 : ℕ) : ℤ) := by omega
  rw [e, zpow_natCast]

theorem all_legWins_of_forall (picks : List Pick) (h : ∀ p ∈ picks, legWins p = true) :
    picks.all legWins = true := by
  simpa [List.all_eq_true] using h

theorem all_legWins_false_of_exists (picks : List Pick)
    (h : ∃ p ∈ picks, legWins p = false) : picks.all legWins = false := by
  obtain ⟨p, hp, hl⟩ := h
  cases hall : picks.all legWins with
  | false => rfl
  | true =>
    rw [List.all_eq_true] at hall
    rw [hall p hp] at hl
    cases hl

/-! ## Payout requested by a claim -/

/-- C1: for a ticket of `L ≥ 1` legs whose first pick carries wager `W ≥ 1` and
whose legs all win, the points `claimTicket` requests are `100 * 2^(L-1) * W`;
in particular 100, 200, 400, 800 for one to four legs at wager 1 and 8000 for
five legs at wager 5. -/
theorem claimTicket_points_formula (c : Client) (g : String) (L : Nat) (W : Int)
    (hL : 1 ≤ L) (hW : 1 ≤ W)
    (hlen : (ticketPicks c g).length = L)
    (hwager : (ticketPicks c g).head?.bind (fun p => p.wager_amount) = some W)
    (hall : ∀ p ∈ ticketPicks c g, legWins p = true) :
    (claimRequest c g).p_points_won = 100 * 2 ^ (L - 1) * (W : ℚ)
    ∧ (L = 1 → W = 1 → (claimRequest c g).p_points_won = 100)
    ∧ (L = 2 → W = 1 → (claimRequest c g).p_points_won = 200)
    ∧ (L = 3 → W = 1 → (claimRequest c g).p_points_won = 400)
    ∧ (L = 4 → W = 1 → (claimRequest c g).p_points_won = 800)
    ∧ (L = 5 → W = 5 → (claimRequest c g).p_points_won = 8000) := by
  have hW0 : W ≠ 0 := by omega
  have key : (claimRequest c g).p_points_won = 100 * 2 ^ (L - 1) * (W : ℚ) := by
    simp only [claimRequest, ticketWager, hwager, all_legWins_of_forall _ hall, if_true,
      orOne_some_of_ne_zero W hW0, hlen, basePoints_of_pos L hL]
  refine ⟨key, ?_, ?_, ?_, ?_, ?_⟩ <;> intro h1 h2 <;> rw [key, h1, h2] <;> norm_num

/-- C2: a ticket with a leg that does not win is claimed for 0 points, and
whether the ticket wins or not the tokens `claimTicket` asks to return are the
wager `W` carried by the ticket (read from its first pick). -/
theorem claimTicket_lost_points_tokens (c : Client) (g : String) (W : Int) (hW : 1 ≤ W)
    (hwager : (ticketPicks c g).head?.bind (fun p => p.wager_amount) = some W) :
    ((∃ p ∈ ticketPicks c g, legWins p = false) → (claimRequest c g).p_points_won = 0)
    ∧ (claimRequest c g).p_tokens_return = W := by
  have hW0 : W ≠ 0 := by omega
  constructor
  · intro hlose
    simp only [claimRequest, all_legWins_false_of_exists _ hlose]
    simp
  · simp only [claimRequest, ticketWager, hwager, orOne_some_of_ne_zero W hW0]

/-! ## Profile and history lemmas -/

theorem find?_profile_of_filter (ps : List Profile) (uid : String) (prof : Profile)
    (h : ps.filter (fun q => q.id == uid) = [prof]) :
    ps.find? (fun q => q.id == uid) = some prof := by
  rw [← List.filter_head?, h]
  rfl

theorem filter_id_map_update (ps : List Profile) (uid : String) (f : Profile → Profile)
    (hf : ∀ q, (f q).id = q.id) :
    (ps.map (fun q => if q.id == uid then f q else q)).filter (fun q => q.id == uid)
      = (ps.filter (fun q => q.id == uid)).map f := by
  induction ps with
  | nil => rfl
  | cons q qs ih =>
    by_cases hq : q.id = uid
    · simp only [beq_iff_eq] at ih
      simp [List.filter_cons, hq, hf, ih]
    · simp only [beq_iff_eq] at ih
      simp [List.filter_cons, hq, ih]

theorem tokensOf_of_filter (s : Server) (uid : String) (prof : Profile)
    (h : s.profiles.filter (fun q => q.id == uid) = [prof]) :
    tokensOf s uid = some prof.beta_tokens := by
  simp [tokensOf, find?_profile_of_filter _ _ _ h]

theorem setTokens_filter (s : Server) (uid : String) (v : Int) (prof : Profile)
    (h : s.profiles.filter (fun q => q.id == uid) = [prof]) :
    (setTokens s uid v).profiles.filter (fun q => q.id == uid)
      = [{ prof with beta_tokens := v }] := by
  simp only [setTokens]
  rw [filter_id_map_update _ _ (fun q => { q with beta_tokens := v }) (fun _ => rfl), h]
  rfl

theorem claim_parlay_filter (s : Server) (r : ClaimRequest) (prof : Profile)
    (h : s.profiles.filter (fun q => q.id == r.p_user_id) = [prof]) :
    (claim_parlay s r).profiles.filter (fun q => q.id == r.p_user_id)
      = [{ prof with beta_tokens := prof.beta_tokens + r.p_tokens_return
                     points := prof.points + r.p_points_won }] := by
  simp only [claim_parlay]
  rw [filter_id_map_update _ _
    (fun q => { q with beta_tokens := q.beta_tokens + r.p_tokens_return
                       points := q.points + r.p_points_won }) (fun _ => rfl), h]
  rfl

@[simp] theorem fetchProfile_session (c : Client) (s : Server) :
    (fetchProfile c s).session_user_id = c.session_user_id := by
  unfold fetchProfile
  split <;> rfl

@[simp] theorem fetchProfile_activeEntries (c : Client) (s : Server) :
    (fetchProfile c s).activeEntries = c.activeEntries := by
  unfold fetchProfile
  split <;> rfl

theorem fetchProfile_of_filter (c : Client) (s : Server) (prof : Profile)
    (h : s.profiles.filter (fun q => q.id == c.session_user_id) = [prof]) :
    (fetchProfile c s).userProfile = some prof := by
  simp [fetchProfile, h]

@[simp] theorem fetchHistory_session (c : Client) (s : Server) :
    (fetchHistory c s).session_user_id = c.session_user_id := rfl

@[simp] theorem fetchHistory_userProfile (c : Client) (s : Server) :
    (fetchHistory c s).userProfile = c.userProfile := rfl

theorem filter_group_history (uid g : String) (s : Server) (news old : List PickRow)
    (hnew : ∀ r ∈ news, r.user_id = uid ∧ r.entry_group = g)
    (hold : ∀ r ∈ old, r.user_id = uid → r.entry_group ≠ g) :
    (((news ++ old).filter (fun r => r.user_id == uid)).map (joinPick s)).filter
        (fun p => p.entry_group == g) = news.map (joinPick s) := by
  rw [List.filter_append, List.map_append, List.filter_append]
  have h1 : news.filter (fun r => r.user_id == uid) = news :=
    List.filter_eq_self.2 (fun r hr => by simp [(hnew r hr).1])
  have h2 : (news.map (joinPick s)).filter (fun p => p.entry_group == g)
      = news.map (joinPick s) :=
    List.filter_eq_self.2 (fun p hp => by
      obtain ⟨r, hr, rfl⟩ := List.mem_map.1 hp
      simp [joinPick, (hnew r hr).2])
  have h3 : ((old.filter (fun r => r.user_id == uid)).map (joinPick s)).filter
      (fun p => p.entry_group == g) = [] :=
    List.filter_eq_nil_iff.2 (fun p hp => by
      obtain ⟨r, hr, rfl⟩ := List.mem_map.1 hp
      have hr2 := List.mem_filter.1 hr
      have hu : r.user_id = uid := by simpa using hr2.2
      simpa [joinPick] using hold r hr2.1 hu)
  rw [h1, h2, h3, List.append_nil]

theorem newPicks_fields (c : Client) (g : String) :
    ∀ r ∈ newPicks c g, r.user_id = c.session_user_id ∧ r.entry_group = g := by
  intro r hr
  obtain ⟨kv, _, rfl⟩ := List.mem_map.1 hr
  exact ⟨rfl, rfl⟩

theorem newPicks_head_wager (c : Client) (g : String) (s : Server) (hsel : c.selections ≠ []) :
    (((newPicks c g).map (joinPick s)).head?.bind (fun p => p.wager_amount))
      = some c.wagerAmount := by
  cases hs : objEntries c.selections with
  | nil => exact absurd hs (objEntries_ne_nil _ hsel)
  | cons kv rest => simp [newPicks, hs, joinPick]

/-- The state `submitTicket` reaches when both requests are applied. -/
theorem submitTicket_success (now : Nat) (c : Client) (s : Server) (prof : Profile)
    (hsel : c.selections ≠ []) (hprof : c.userProfile = some prof)
    (hb : c.wagerAmount ≤ prof.beta_tokens) :
    submitTicket now false false c s =
      ⟨.submitted,
        fetchHistory (fetchProfile { c with selections := [], wagerAmount := 1 }
          (setTokens { s with user_picks := newPicks c (toString now) ++ s.user_picks }
            c.session_user_id (prof.beta_tokens - c.wagerAmount)))
          (setTokens { s with user_picks := newPicks c (toString now) ++ s.user_picks }
            c.session_user_id (prof.beta_tokens - c.wagerAmount)),
        setTokens { s with user_picks := newPicks c (toString now) ++ s.user_picks }
          c.session_user_id (prof.beta_tokens - c.wagerAmount)⟩ := by
  have h0 : c.selections.length ≠ 0 := by
    intro h
    exact hsel (List.length_eq_zero.1 h)
  have h1 : ¬ prof.beta_tokens < c.wagerAmount := by omega
  simp [submitTicket, h0, hprof, h1]

/-! ## Conservation of tokens -/

/-- Settling a new ticket once both refreshes started by `submitTicket` have
arrived: with a wager `W` in 1..5 and a token balance `b ≥ W`, `submitTicket`
debits `W`, and `cancelTicket` or `claimTicket` returns exactly `W`, however
the questions were decided in between (`ms` is the matchups table at that
time, and the client has read its history again).  The ticket identifier is
assumed not to be in use by an older pick of the caller.  The balance after a
claim is that left by the accepted `claim_parlay` call. -/
theorem settle_after_refresh (now : Nat) (c : Client) (s : Server) (prof : Profile) (W : Int)
    (ms : List Matchup)
    (hsel : c.selections ≠ [])
    (hW : c.wagerAmount = W) (hW1 : 1 ≤ W) (hW5 : W ≤ 5)
    (hprof : c.userProfile = some prof)
    (hrow : s.profiles.filter (fun q => q.id == c.session_user_id) = [prof])
    (hb : W ≤ prof.beta_tokens)
    (hfresh : ∀ r ∈ s.user_picks, r.user_id = c.session_user_id →
      r.entry_group ≠ toString now) :
    tokensOf s c.session_user_id = some prof.beta_tokens
    ∧ (submitTicket now false false c s).outcome = .submitted
    ∧ tokensOf (submitTicket now false false c s).server c.session_user_id
        = some (prof.beta_tokens - W)
    ∧ (cancelTicket true false false
        (fetchHistory (submitTicket now false false c s).client
          { (submitTicket now false false c s).server with matchups := ms })
        { (submitTicket now false false c s).server with matchups := ms }
        (toString now)).outcome = .unlocked
    ∧ tokensOf (cancelTicket true false false
        (fetchHistory (submitTicket now false false c s).client
          { (submitTicket now false false c s).server with matchups := ms })
        { (submitTicket now false false c s).server with matchups := ms }
        (toString now)).server c.session_user_id = some prof.beta_tokens
    ∧ (claimRequest
        (fetchHistory (submitTicket now false false c s).client
          { (submitTicket now false false c s).server with matchups := ms })
        (toString now)).p_tokens_return = W
    ∧ tokensOf (claimTicket false
        (fetchHistory (submitTicket now false false c s).client
          { (submitTicket now false false c s).server with matchups := ms })
        { (submitTicket now false false c s).server with matchups := ms }
        (toString now)).server c.session_user_id = some prof.beta_tokens := by
  subst hW
  rw [submitTicket_success now c s prof hsel hprof hb]
  generalize hg : toString now = g at *
  generalize hs2 : setTokens { s with user_picks := newPicks c g ++ s.user_picks }
    c.session_user_id (prof.beta_tokens - c.wagerAmount) = s2
  generalize hc2 : fetchHistory (fetchProfile { c with selections := [], wagerAmount := 1 } s2) s2
    = c2
  simp only []
  generalize hs3 : ({ s2 with matchups := ms } : Server) = s3
  generalize hc3 : fetchHistory c2 s3 = c3
  have hf2 : s2.profiles.filter (fun q => q.id == c.session_user_id)
      = [{ prof with beta_tokens := prof.beta_tokens - c.wagerAmount }] := by
    rw [← hs2]
    exact setTokens_filter _ _ _ _ hrow
  have hf3 : s3.profiles.filter (fun q => q.id == c.session_user_id)
      = [{ prof with beta_tokens := prof.beta_tokens - c.wagerAmount }] := by
    rw [← hs3]; exact hf2
  have hpk3 : s3.user_picks = newPicks c g ++ s.user_picks := by
    rw [← hs3, ← hs2]; rfl
  have huid : c3.session_user_id = c.session_user_id := by
    rw [← hc3, ← hc2]; simp
  have hc3prof : c3.userProfile
      = some { prof with beta_tokens := prof.beta_tokens - c.wagerAmount } := by
    rw [← hc3, ← hc2, fetchHistory_userProfile, fetchHistory_userProfile]
    exact fetchProfile_of_filter _ _ _ hf2
  have hpicks : ticketPicks c3 g = (newPicks c g).map (joinPick s3) := by
    rw [← hc3, ← hc2]
    simp only [ticketPicks, fetchHistory, fetchProfile_session, hpk3]
    exact filter_group_history _ _ _ _ _ (newPicks_fields c g) hfresh
  have hwag : ticketWager (ticketPicks c3 g) = c.wagerAmount := by
    rw [hpicks, ticketWager, newPicks_head_wager c g s3 hsel]
    exact orOne_some_of_ne_zero _ (by omega)
  refine ⟨tokensOf_of_filter _ _ _ hrow, trivial, ?_, ?_, ?_, ?_, ?_⟩
  · simpa using tokensOf_of_filter _ _ _ hf2
  · simp [cancelTicket, hc3prof]
  · have hm : (markClaimed s3 g).profiles.filter (fun q => q.id == c.session_user_id)
        = [{ prof with beta_tokens := prof.beta_tokens - c.wagerAmount }] := hf3
    have := tokensOf_of_filter _ _ _
      (setTokens_filter (markClaimed s3 g) c.session_user_id
        (prof.beta_tokens - c.wagerAmount + c.wagerAmount) _ hm)
    simpa [cancelTicket, hc3prof, hwag, huid] using this
  · simp [claimRequest, hwag]
  · have hreq : (claimRequest c3 g).p_user_id = c.session_user_id := huid
    have hf4 : s3.profiles.filter (fun q => q.id == (claimRequest c3 g).p_user_id)
        = [{ prof with beta_tokens := prof.beta_tokens - c.wagerAmount }] := by
      rw [hreq]; exact hf3
    have ht : (claimRequest c3 g).p_tokens_return = c.wagerAmount := by
      simp [claimRequest, hwag]
    have := tokensOf_of_filter _ _ _ (claim_parlay_filter s3 (claimRequest c3 g) _ hf4)
    rw [hreq, ht] at this
    simpa [claimTicket] using this

/-! ## Effects of ticket creation -/

theorem tokensOf_setTokens (s : Server) (uid : String) (v b : Int)
    (h : tokensOf s uid = some b) : tokensOf (setTokens s uid v) uid = some v := by
  unfold tokensOf setTokens at *
  simp only
  generalize s.profiles = ps at h
  induction ps with
  | nil => simp at h
  | cons q qs ih =>
    by_cases hq : q.id = uid
    · simp [List.find?_cons, hq]
    · have h2 : (qs.find? (fun q => q.id == uid)).map (fun q => q.beta_tokens) = some b := by
        simpa [List.find?_cons, hq] using h
      simpa [List.find?_cons, hq] using ih h2

/-- When `submitTicket` reports success, nothing was rejected and no request
failed. -/
theorem submitTicket_submitted_inv (now : Nat) (ie ue : Bool) (c : Client) (s : Server)
    (hok : (submitTicket now ie ue c s).outcome = .submitted) :
    c.selections ≠ [] ∧ ie = false ∧ ue = false
    ∧ ∃ prof, c.userProfile = some prof ∧ c.wagerAmount ≤ prof.beta_tokens := by
  unfold submitTicket at hok
  split at hok
  · cases hok
  · rename_i hlen
    split at hok
    · cases hok
    · rename_i prof hprof
      split at hok
      · cases hok
      · rename_i hlt
        cases ie with
        | true => simp at hok
        | false =>
          cases ue with
          | true => simp at hok
          | false =>
            refine ⟨?_, rfl, rfl, prof, hprof, by omega⟩
            intro h
            exact hlen (by simp [h])

/-- C4: when `submitTicket` succeeds with `n` selections (then `n ≥ 1`) and wager `W` on a
token balance `b` (the stored balance, which the client has cached), the stored
balance becomes `b - W` and exactly `n` picks are added, one per selected
question with the option selected for it (in the order in which `Object.keys`
lists the selections), all with the caller's user id, the same entry group,
wager `W` and `is_claimed = false`. -/
theorem submitTicket_effect (now : Nat) (ie ue : Bool) (c : Client) (s : Server)
    (prof : Profile) (n : Nat) (W b : Int)
    (hlen : c.selections.length = n) (hW : c.wagerAmount = W)
    (hprof : c.userProfile = some prof) (hb : prof.beta_tokens = b)
    (hstored : tokensOf s c.session_user_id = some b)
    (hok : (submitTicket now ie ue c s).outcome = .submitted) :
    1 ≤ n
    ∧ tokensOf (submitTicket now ie ue c s).server c.session_user_id = some (b - W)
    ∧ ∃ picks : List PickRow,
        (submitTicket now ie ue c s).server.user_picks = picks ++ s.user_picks
        ∧ picks.length = n
        ∧ picks.map (fun r => (r.matchup_id, r.selected_option))
            = (objEntries c.selections).map (fun kv => (kv.1, some kv.2))
        ∧ (picks.map (fun r => (r.matchup_id, r.selected_option))).Perm
            (c.selections.map (fun kv => (kv.1, some kv.2)))
        ∧ ∀ r ∈ picks, r.user_id = c.session_user_id ∧ r.entry_group = toString now
            ∧ r.wager_amount = some W ∧ r.is_claimed = false := by
  obtain ⟨hsel, rfl, rfl, prof2, hprof2, hle⟩ := submitTicket_submitted_inv now ie ue c s hok
  rw [hprof] at hprof2
  cases hprof2
  rw [submitTicket_success now c s prof hsel hprof hle]
  subst hW hb
  have hmap : (newPicks c (toString now)).map (fun r => (r.matchup_id, r.selected_option))
      = (objEntries c.selections).map (fun kv => (kv.1, some kv.2)) := by
    simp [newPicks]
  refine ⟨?_, tokensOf_setTokens _ _ _ _ hstored, newPicks c (toString now), rfl, ?_, hmap,
    ?_, ?_⟩
  · rw [← hlen]
    exact List.length_pos.2 hsel
  · simpa [newPicks, objEntries_length] using hlen
  · rw [hmap]
    exact (objEntries_perm c.selections).map _
  · intro r hr
    obtain ⟨kv, _, rfl⟩ := List.mem_map.1 hr
    exact ⟨rfl, rfl, rfl, rfl⟩

/-- C5: with a non-empty selection set, `submitTicket` rejects the request when
the cached token balance is below the wager, storing nothing and leaving both
states as they were; when the balance is at least the wager the outcome is not
the insufficient-tokens rejection. -/
theorem submitTicket_insufficient (now : Nat) (ie ue : Bool) (c : Client) (s : Server)
    (prof : Profile) (hsel : c.selections ≠ []) (hprof : c.userProfile = some prof) :
    (prof.beta_tokens < c.wagerAmount →
      (submitTicket now ie ue c s).outcome = .insufficientTokens
      ∧ (submitTicket now ie ue c s).server = s
      ∧ (submitTicket now ie ue c s).client = c)
    ∧ (c.wagerAmount ≤ prof.beta_tokens →
      (submitTicket now ie ue c s).outcome ≠ .insufficientTokens) := by
  have h0 : c.selections.length ≠ 0 := by
    intro h
    exact hsel (List.length_eq_zero.1 h)
  constructor
  · intro hlt
    simp [submitTicket, h0, hprof, hlt]
  · intro hle
    have h1 : ¬ prof.beta_tokens < c.wagerAmount := by omega
    cases ie <;> cases ue <;> simp [submitTicket, h0, hprof, h1]

/-- C6: `submitTicket` with an empty selection set is rejected whatever the token
balance and the wager: no pick is stored and no balance changes. -/
theorem submitTicket_empty (now : Nat) (ie ue : Bool) (c : Client) (s : Server)
    (hsel : c.selections = []) :
    (submitTicket now ie ue c s).outcome = .emptySelection
    ∧ (submitTicket now ie ue c s).server = s
    ∧ (submitTicket now ie ue c s).client = c := by
  simp [submitTicket, hsel]

/-! ## Instances of the theorems above -/

/-- Instance of C1: the five-leg ticket at wager 5 is claimed for 8000 points. -/
theorem claimTicket_points_formula_witness :
    (claimRequest fiveLegClient "1000").p_points_won = 8000 :=
  (claimTicket_points_formula fiveLegClient "1000" 5 5 (by decide) (by decide)
    (by decide) (by decide) (by decide)).2.2.2.2.2 rfl rfl

/-- Instance of C2: the two-leg ticket with a losing leg is claimed for 0 points
and its 3 tokens. -/
theorem claimTicket_lost_points_tokens_witness :
    (claimRequest lostTicketClient "2000").p_points_won = 0
    ∧ (claimRequest lostTicketClient "2000").p_tokens_return = 3 :=
  ⟨(claimTicket_lost_points_tokens lostTicketClient "2000" 3 (by decide) (by decide)).1
      (by decide),
    (claimTicket_lost_points_tokens lostTicketClient "2000" 3 (by decide) (by decide)).2⟩

/-- Instance of C4: `u1` submits three legs at wager 2 on 5 tokens; 3 tokens
remain and the table holds three more picks. -/
theorem submitTicket_effect_witness :
    tokensOf (submitTicket 1000 false false sampleClient sampleServer).server "u1" = some 3
    ∧ (submitTicket 1000 false false sampleClient sampleServer).server.user_picks.length
        = 3 + sampleServer.user_picks.length := by
  obtain ⟨_, h2, picks, h3, h4, _⟩ :=
    submitTicket_effect 1000 false false sampleClient sampleServer ⟨"u1", 5, 0⟩ 3 2 5
      (by decide) rfl rfl rfl (by decide) (by decide)
  refine ⟨h2, ?_⟩
  rw [h3, List.length_append, h4]

/-- Instance of C5: wager 2 on a balance of 1 is rejected and nothing is
stored. -/
theorem submitTicket_insufficient_witness :
    (submitTicket 1000 false false poorClient sampleServer).outcome = .insufficientTokens
    ∧ (submitTicket 1000 false false poorClient sampleServer).server = sampleServer :=
  have h := (submitTicket_insufficient 1000 false false poorClient sampleServer ⟨"u1", 1, 0⟩
    (by decide) rfl).1 (by decide)
  ⟨h.1, h.2.1⟩

/-- Instance of C6: submitting with nothing selected is rejected. -/
theorem submitTicket_empty_witness :
    (submitTicket 1000 false false idleClient sampleServer).outcome = .emptySelection
    ∧ (submitTicket 1000 false false idleClient sampleServer).server = sampleServer :=
  have h := submitTicket_empty 1000 false false idleClient sampleServer rfl
  ⟨h.1, h.2.1⟩

/-! ## Lock deadline at submission -/

/-- C7, counterexample: option A of `m1` is selected at time 50, before the lock
at time 100; submitted at time 200, after every lock, the ticket is stored and 2
tokens are debited. -/
theorem submitTicket_after_lock_counterexample :
    idleClient.currentTime < 100
    ∧ lateClient.selections = [("m1", "A")]
    ∧ (∀ m ∈ lateClient.matchups, m.lock_time ≤ lateClient.currentTime)
    ∧ (∀ m ∈ sampleServer.matchups, m.lock_time ≤ lateClient.currentTime)
    ∧ (submitTicket 1000 false false lateClient sampleServer).outcome = .submitted
    ∧ (submitTicket 1000 false false lateClient sampleServer).server.user_picks
        = { user_id := "u1", matchup_id := "m1", selected_option := some "A",
            entry_group := "1000", wager_amount := some 2, is_claimed := false }
          :: sampleServer.user_picks
    ∧ tokensOf (submitTicket 1000 false false lateClient sampleServer).server "u1"
        = some 3 := by
  decide

/-- C7, as amended: `submitTicket` never consults a lock deadline.  Its outcome,
the picks it stores and the balances it writes are the same whatever the lock
times known to the client or to the backend and whatever the current time, so a
selection made before the deadline is stored and debited like any other. -/
theorem submitTicket_ignores_lock (now : Nat) (ie ue : Bool) (c : Client) (s : Server)
    (ms ms2 : List Matchup) (t : Nat) :
    (submitTicket now ie ue { c with matchups := ms, currentTime := t }
        { s with matchups := ms2 }).outcome = (submitTicket now ie ue c s).outcome
    ∧ (submitTicket now ie ue { c with matchups := ms, currentTime := t }
        { s with matchups := ms2 }).server.user_picks
        = (submitTicket now ie ue c s).server.user_picks
    ∧ (submitTicket now ie ue { c with matchups := ms, currentTime := t }
        { s with matchups := ms2 }).server.profiles
        = (submitTicket now ie ue c s).server.profiles := by
  cases hp : c.userProfile with
  | none =>
    by_cases h0 : c.selections.length = 0 <;> simp [submitTicket, hp, h0]
  | some prof =>
    by_cases h0 : c.selections.length = 0 <;>
      by_cases h1 : prof.beta_tokens < c.wagerAmount <;>
      cases ie <;> cases ue <;>
      simp [submitTicket, hp, h0, h1, setTokens, newPicks]

/-! ## Failures of the second write -/

/-- C8, counterexample: when the token deduction of `submitTicket` fails the
three picks of ticket `1000` stay stored, and when the token return of
`cancelTicket` fails the picks of the ticket stay marked as claimed; the balance
is untouched both times. -/
theorem second_write_failure_counterexample :
    (submitTicket 1000 false true sampleClient sampleServer).outcome = .deductionFailed
    ∧ ((submitTicket 1000 false true sampleClient sampleServer).server.user_picks.filter
        (fun r => r.entry_group == "1000")).length = 3
    ∧ tokensOf (submitTicket 1000 false true sampleClient sampleServer).server "u1" = some 5
    ∧ (cancelTicket true false true openTicket.client openTicket.server "1000").outcome
        = .returnFailed
    ∧ (((cancelTicket true false true openTicket.client openTicket.server
          "1000").server.user_picks.filter (fun r => r.entry_group == "1000")).map
          (fun r => r.is_claimed)) = [true, true, true]
    ∧ tokensOf (cancelTicket true false true openTicket.client openTicket.server
        "1000").server "u1" = some 3 := by
  decide

/-- C8, as amended: a rejection or a failure of the first write leaves the
stored state as it was (`submitTicket` rejected or its insert failed,
`cancelTicket` declined or its marking failed).  A failure of the second write
is not undone: after a failed token deduction the new picks are stored and the
profiles unchanged, and after a failed token return (or with no cached profile)
the picks of the ticket are marked claimed and the profiles unchanged. -/
theorem first_write_atomic_second_not (now : Nat) (ie ue : Bool) (confirmed ue2 pe : Bool)
    (c : Client) (s : Server) (g : String) :
    ((submitTicket now ie ue c s).outcome ≠ .submitted →
      (submitTicket now ie ue c s).outcome ≠ .deductionFailed →
      (submitTicket now ie ue c s).server = s)
    ∧ ((submitTicket now ie ue c s).outcome = .deductionFailed →
      (submitTicket now ie ue c s).server
        = { s with user_picks := newPicks c (toString now) ++ s.user_picks })
    ∧ ((cancelTicket confirmed ue2 pe c s g).outcome = .declined
        ∨ (cancelTicket confirmed ue2 pe c s g).outcome = .unlockFailed →
      (cancelTicket confirmed ue2 pe c s g).server = s)
    ∧ ((cancelTicket confirmed ue2 pe c s g).outcome = .threw
        ∨ (cancelTicket confirmed ue2 pe c s g).outcome = .returnFailed →
      (cancelTicket confirmed ue2 pe c s g).server = markClaimed s g) := by
  refine ⟨?_, ?_, ?_, ?_⟩
  · cases hp : c.userProfile with
    | none =>
      by_cases h0 : c.selections.length = 0 <;> simp [submitTicket, hp, h0]
    | some prof =>
      by_cases h0 : c.selections.length = 0 <;>
        by_cases h1 : prof.beta_tokens < c.wagerAmount <;>
        cases ie <;> cases ue <;>
        simp [submitTicket, hp, h0, h1]
  · cases hp : c.userProfile with
    | none =>
      by_cases h0 : c.selections.length = 0 <;> simp [submitTicket, hp, h0]
    | some prof =>
      by_cases h0 : c.selections.length = 0 <;>
        by_cases h1 : prof.beta_tokens < c.wagerAmount <;>
        cases ie <;> cases ue <;>
        simp [submitTicket, hp, h0, h1]
  · cases hp : c.userProfile <;> cases confirmed <;> cases ue2 <;> cases pe <;>
      simp [cancelTicket, hp]
  · cases hp : c.userProfile <;> cases confirmed <;> cases ue2 <;> cases pe <;>
      simp [cancelTicket, hp]

/-- Instance of C8 as amended: the failed deduction on the sample ticket leaves
its three picks stored, and the failed token return leaves the open sample
ticket marked claimed. -/
theorem first_write_atomic_second_not_witness :
    (submitTicket 1000 false true sampleClient sampleServer).server
      = { sampleServer with
          user_picks := newPicks sampleClient (toString 1000) ++ sampleServer.user_picks }
    ∧ (cancelTicket true false true openTicket.client openTicket.server "1000").server
      = markClaimed openTicket.server "1000" :=
  ⟨(first_write_atomic_second_not 1000 false true true false true sampleClient sampleServer
      "1000").2.1 (by decide),
    (first_write_atomic_second_not 1000 false true true false true openTicket.client
      openTicket.server "1000").2.2.2 (Or.inr (by decide))⟩

/-! ## Claims on a ticket that is already settled -/

/-- The request of `claimTicket` is blind to any change of the history that
keeps each pick's entry group, wager and leg result. -/
theorem claimRequest_congr_map (c c2 : Client) (g : String) (f : Pick → Pick)
    (hg : ∀ p, (f p).entry_group = p.entry_group)
    (hw : ∀ p, (f p).wager_amount = p.wager_amount)
    (hl : ∀ p, legWins (f p) = legWins p)
    (hs : c2.session_user_id = c.session_user_id)
    (he : c2.activeEntries = c.activeEntries.map f) :
    claimRequest c2 g = claimRequest c g := by
  have hpicks : ticketPicks c2 g = (ticketPicks c g).map f := by
    simp only [ticketPicks, he, List.filter_map]
    congr 1
    apply List.filter_congr
    intro p _
    simp [hg]
  have hwager : ticketWager (ticketPicks c2 g) = ticketWager (ticketPicks c g) := by
    rw [hpicks]
    unfold ticketWager
    cases ticketPicks c g with
    | nil => rfl
    | cons p ps => simp [hw]
  have hall : (ticketPicks c2 g).all legWins = (ticketPicks c g).all legWins := by
    rw [hpicks, List.all_map]
    congr 1
    funext p
    exact hl p
  have hlen : (ticketPicks c2 g).length = (ticketPicks c g).length := by
    rw [hpicks, List.length_map]
  simp only [claimRequest, hwager, hall, hlen, hs]

/-- Reading the history from a backend whose picks differ only in `is_claimed`
gives the same picks up to that flag. -/
theorem fetchHistory_flags (c c2 : Client) (s s2 : Server) (fl : PickRow → PickRow)
    (hfl : ∀ r, ∃ b, fl r = { r with is_claimed := b })
    (hm : s2.matchups = s.matchups)
    (hp : s2.user_picks = s.user_picks.map fl)
    (hs : c2.session_user_id = c.session_user_id) :
    (fetchHistory c2 s2).activeEntries
      = (fetchHistory c s).activeEntries.map
          (fun p => { toPickRow := fl p.toPickRow, matchups := p.matchups }) := by
  have hu : ∀ r, (fl r).user_id = r.user_id := by
    intro r
    obtain ⟨b, hb⟩ := hfl r
    rw [hb]
  have hmid : ∀ r, (fl r).matchup_id = r.matchup_id := by
    intro r
    obtain ⟨b, hb⟩ := hfl r
    rw [hb]
  simp only [fetchHistory, hp, hs, List.filter_map, List.map_map]
  have e : (fun r => r.user_id == c.session_user_id) ∘ fl
      = (fun r => r.user_id == c.session_user_id) := by
    funext r
    simp [hu]
  rw [e]
  apply List.map_congr_left
  intro r _
  simp [joinPick, hm, hmid]

/-- A later claim request does not see whether the backend picks were flagged
in between. -/
theorem claimRequest_flags (c c2 : Client) (s s2 : Server) (g : String)
    (fl : PickRow → PickRow)
    (hfl : ∀ r, ∃ b, fl r = { r with is_claimed := b })
    (hm : s2.matchups = s.matchups)
    (hp : s2.user_picks = s.user_picks.map fl)
    (hs : c2.session_user_id = c.session_user_id) :
    claimRequest (fetchHistory c2 s2) g = claimRequest (fetchHistory c s) g := by
  refine claimRequest_congr_map (fetchHistory c s) (fetchHistory c2 s2) g
    (fun p => { toPickRow := fl p.toPickRow, matchups := p.matchups }) ?_ ?_ ?_ hs
    (fetchHistory_flags c c2 s s2 fl hfl hm hp hs)
  · intro p
    obtain ⟨b, hb⟩ := hfl p.toPickRow
    simp [hb]
  · intro p
    obtain ⟨b, hb⟩ := hfl p.toPickRow
    simp [hb]
  · intro p
    obtain ⟨b, hb⟩ := hfl p.toPickRow
    simp [legWins, hb]

theorem claimRow_flag (r : ClaimRequest) (row : PickRow) :
    ∃ b, claimRow r row = { row with is_claimed := b } := by
  unfold claimRow
  split
  · exact ⟨true, rfl⟩
  · exact ⟨row.is_claimed, rfl⟩

theorem voidRow_flag (g : String) (row : PickRow) :
    ∃ b, voidRow g row = { row with is_claimed := b } := by
  unfold voidRow
  split
  · exact ⟨true, rfl⟩
  · exact ⟨row.is_claimed, rfl⟩

theorem claimRow_claimed (r : ClaimRequest) (row : PickRow)
    (hg : (claimRow r row).entry_group = r.p_entry_group)
    (hu : (claimRow r row).user_id = r.p_user_id) :
    (claimRow r row).is_claimed = true := by
  obtain ⟨b, hb⟩ := claimRow_flag r row
  have hg2 : row.entry_group = r.p_entry_group := by rw [hb] at hg; exact hg
  have hu2 : row.user_id = r.p_user_id := by rw [hb] at hu; exact hu
  simp [claimRow, hg2, hu2]

theorem voidRow_claimed (g : String) (row : PickRow)
    (hg : (voidRow g row).entry_group = g) : (voidRow g row).is_claimed = true := by
  obtain ⟨b, hb⟩ := voidRow_flag g row
  have hg2 : row.entry_group = g := by rw [hb] at hg; exact hg
  simp [voidRow, hg2]

/-- The points `claimTicket` requests for a winning ticket. -/
theorem claimRequest_win_points (c : Client) (g : String) (L : Nat) (W : Int)
    (hL : 1 ≤ L) (hW : W ≠ 0)
    (hlen : (ticketPicks c g).length = L)
    (hwager : (ticketPicks c g).head?.bind (fun p => p.wager_amount) = some W)
    (hall : ∀ p ∈ ticketPicks c g, legWins p = true) :
    (claimRequest c g).p_points_won = 100 * 2 ^ (L - 1) * (W : ℚ) := by
  simp only [claimRequest, ticketWager, hwager, all_legWins_of_forall _ hall, if_true,
    orOne_some_of_ne_zero W hW, hlen, basePoints_of_pos L hL]

/-- C9, counterexample: after the sample ticket was claimed once, successfully,
all three picks are marked claimed, and a second `claimTicket` call on it still
asks for 2 tokens and 800 points. -/
theorem second_claim_counterexample :
    firstClaim.outcome = .won
    ∧ (ticketPicks firstClaim.client "1000").map (fun p => p.is_claimed) = [true, true, true]
    ∧ (claimRequest firstClaim.client "1000").p_tokens_return = 2
    ∧ (claimRequest firstClaim.client "1000").p_points_won = 800 := by
  refine ⟨by decide, by decide, by decide, ?_⟩
  rw [claimRequest_win_points firstClaim.client "1000" 3 2 (by decide) (by decide)
    (by decide) (by decide) (by decide)]
  norm_num

/-- C9, as amended: `claimTicket` does not look at `is_claimed`.  For a client
whose history is in step with the backend, after a first claim that the backend
accepted every pick of the ticket is marked claimed and a second call sends the
same request as the first, with the same tokens and points; turning it down is
left to `claim_parlay`. -/
theorem second_claim_same_request (c : Client) (s : Server) (g : String)
    (hsync : c.activeEntries = (fetchHistory c s).activeEntries) :
    (claimTicket false c s g).outcome ≠ .claimFailed
    ∧ (∀ p ∈ ticketPicks (claimTicket false c s g).client g, p.is_claimed = true)
    ∧ claimRequest (claimTicket false c s g).client g = claimRequest c g := by
  refine ⟨?_, ?_, ?_⟩
  · by_cases h : (ticketPicks c g).all legWins = true <;> simp [claimTicket, h]
  · intro p hp
    simp only [claimTicket, Bool.false_eq_true, if_false, ticketPicks, fetchHistory,
      fetchProfile_session] at hp
    obtain ⟨hp1, hp2⟩ := List.mem_filter.1 hp
    obtain ⟨r, hr, rfl⟩ := List.mem_map.1 hp1
    obtain ⟨hr1, hr2⟩ := List.mem_filter.1 hr
    obtain ⟨r0, _, rfl⟩ := List.mem_map.1 hr1
    exact claimRow_claimed (claimRequest c g) r0 (by simpa [joinPick] using hp2)
      (by simpa using hr2)
  · have h1 : claimRequest (claimTicket false c s g).client g
        = claimRequest (fetchHistory c s) g := by
      simp only [claimTicket, Bool.false_eq_true, if_false]
      exact claimRequest_flags c _ s _ g (claimRow (claimRequest c g))
        (claimRow_flag _) rfl rfl (by simp)
    have h2 : fetchHistory c s = c := by
      cases c
      simp only [fetchHistory] at hsync ⊢
      rw [← hsync]
    rw [h1, h2]

/-- Instance of C9 as amended: the second request on the sample ticket is the
request of the first claim. -/
theorem second_claim_same_request_witness :
    claimRequest (claimTicket false readyClient decidedServer "1000").client "1000"
      = claimRequest readyClient "1000" :=
  (second_claim_same_request readyClient decidedServer "1000" (by decide)).2.2

/-! ## Claims on a cancelled ticket -/

/-- C10, counterexample: the sample ticket is cancelled while open and its 2
tokens are returned (balance 5 again); once its questions are decided in its
favour, a claim attempt on it still asks for 2 tokens and 800 points. -/
theorem claim_after_cancel_counterexample :
    voidedTicket.outcome = .unlocked
    ∧ tokensOf voidedTicket.server "u1" = some 5
    ∧ (ticketPicks voidedThenDecided "1000").map (fun p => p.is_claimed) = [true, true, true]
    ∧ (claimRequest voidedThenDecided "1000").p_tokens_return = 2
    ∧ (claimRequest voidedThenDecided "1000").p_points_won = 800 := by
  refine ⟨by decide, by decide, by decide, by decide, ?_⟩
  rw [claimRequest_win_points voidedThenDecided "1000" 3 2 (by decide) (by decide)
    (by decide) (by decide) (by decide)]
  norm_num

/-- C10, as amended: `cancelTicket` voids a ticket by marking its picks
`is_claimed`, the flag a claim sets, and `claimTicket` does not look at that
flag.  However the questions are decided afterwards, a claim attempt on the
voided ticket sends the request it would have sent had the ticket not been
cancelled; turning it down is left to `claim_parlay`. -/
theorem claim_after_cancel_same_request (c : Client) (s : Server) (g : String)
    (prof : Profile) (ms : List Matchup) (hprof : c.userProfile = some prof) :
    (cancelTicket true false false c s g).outcome = .unlocked
    ∧ (∀ r ∈ (cancelTicket true false false c s g).server.user_picks,
        r.entry_group = g → r.is_claimed = true)
    ∧ claimRequest
        (fetchHistory (cancelTicket true false false c s g).client
          { (cancelTicket true false false c s g).server with matchups := ms }) g
      = claimRequest (fetchHistory c { s with matchups := ms }) g := by
  refine ⟨?_, ?_, ?_⟩
  · simp [cancelTicket, hprof]
  · intro r hr hg
    simp only [cancelTicket, hprof, Bool.not_true, Bool.false_eq_true, if_false, setTokens,
      markClaimed] at hr
    obtain ⟨r0, _, rfl⟩ := List.mem_map.1 hr
    exact voidRow_claimed g r0 hg
  · simp only [cancelTicket, hprof, Bool.not_true, Bool.false_eq_true, if_false]
    exact claimRequest_flags c _ { s with matchups := ms } _ g (voidRow g)
      (voidRow_flag g) rfl rfl (by simp)

/-- Instance of C10 as amended: on the cancelled sample ticket the later request
is the one the open ticket would have sent. -/
theorem claim_after_cancel_same_request_witness :
    claimRequest voidedThenDecided "1000" = claimRequest readyClient "1000" :=
  (claim_after_cancel_same_request openTicket.client openTicket.server "1000" ⟨"u1", 3, 0⟩
    decidedMatchups (by decide)).2.2

/-! ## Cancelling a ticket that is already terminal -/

/-- C11, counterexample: the sample ticket is cancelled and its 2 tokens come
back (balance 5); with every pick of it marked claimed, a second `cancelTicket`
succeeds again and the balance becomes 7. -/
theorem cancel_twice_counterexample :
    voidedTicket.outcome = .unlocked
    ∧ tokensOf voidedTicket.server "u1" = some 5
    ∧ (ticketPicks voidedTicket.client "1000").map (fun p => p.is_claimed) = [true, true, true]
    ∧ voidedAgain.outcome = .unlocked
    ∧ tokensOf voidedAgain.server "u1" = some 7 := by
  decide

/-- C11, as amended: `cancelTicket` does not look at the state of the ticket.
Whatever the `is_claimed` flags of its picks, when the dialog is confirmed and
both updates are applied it reports success and writes the cached balance plus
the ticket's wager, so cancelling a terminal ticket returns the wager again. -/
theorem cancelTicket_no_state_check (c : Client) (s : Server) (g : String) (prof : Profile)
    (b : Int) (hprof : c.userProfile = some prof)
    (hstored : tokensOf s c.session_user_id = some b) :
    (cancelTicket true false false c s g).outcome = .unlocked
    ∧ tokensOf (cancelTicket true false false c s g).server c.session_user_id
        = some (prof.beta_tokens + ticketWager (ticketPicks c g)) := by
  have hm : tokensOf (markClaimed s g) c.session_user_id = some b := hstored
  constructor
  · simp [cancelTicket, hprof]
  · simpa [cancelTicket, hprof] using tokensOf_setTokens (markClaimed s g) c.session_user_id
      (prof.beta_tokens + ticketWager (ticketPicks c g)) b hm

/-- Instance of C11 as amended: the second cancel of the sample ticket writes
5 + 2 tokens. -/
theorem cancelTicket_no_state_check_witness :
    tokensOf voidedAgain.server "u1"
      = some (5 + ticketWager (ticketPicks voidedTicket.client "1000")) :=
  (cancelTicket_no_state_check voidedTicket.client voidedTicket.server "1000" ⟨"u1", 5, 0⟩ 5
    (by decide) (by decide)).2

theorem orOne_ne_zero (w : Option Int) : orOne w ≠ 0 := by
  cases w with
  | none => simp [orOne]
  | some v =>
    by_cases h : v = 0
    · simp [orOne, h]
    · simp [orOne, h]

/-! ## The end-to-end scenario -/

theorem pointsOf_of_filter (s : Server) (uid : String) (prof : Profile)
    (h : s.profiles.filter (fun q => q.id == uid) = [prof]) :
    pointsOf s uid = some prof.points := by
  simp [pointsOf, find?_profile_of_filter _ _ _ h]

/-- The history of a freshly submitted ticket, read again after the matchups
table became `ms`: the picks of the ticket are the submitted rows, and the
caller's profile row holds the debited balance. -/
theorem submitted_ticket_history (now : Nat) (c : Client) (s : Server) (prof : Profile)
    (ms : List Matchup)
    (hsel : c.selections ≠ []) (hprof : c.userProfile = some prof)
    (hrow : s.profiles.filter (fun q => q.id == c.session_user_id) = [prof])
    (hb : c.wagerAmount ≤ prof.beta_tokens)
    (hfresh : ∀ r ∈ s.user_picks, r.user_id = c.session_user_id →
      r.entry_group ≠ toString now) :
    ticketPicks
        (fetchHistory (submitTicket now false false c s).client
          { (submitTicket now false false c s).server with matchups := ms }) (toString now)
      = (newPicks c (toString now)).map
          (joinPick { (submitTicket now false false c s).server with matchups := ms })
    ∧ (submitTicket now false false c s).server.profiles.filter
          (fun q => q.id == c.session_user_id)
        = [{ prof with beta_tokens := prof.beta_tokens - c.wagerAmount }]
    ∧ (fetchHistory (submitTicket now false false c s).client
          { (submitTicket now false false c s).server with matchups := ms }).session_user_id
        = c.session_user_id := by
  rw [submitTicket_success now c s prof hsel hprof hb]
  refine ⟨?_, setTokens_filter _ _ _ _ hrow, by simp⟩
  simp only [ticketPicks, fetchHistory, fetchProfile_session, setTokens]
  exact filter_group_history _ _ _ _ _ (newPicks_fields c (toString now)) hfresh

theorem legWins_joined_newPick (c : Client) (g : String) (s : Server)
    (hdec : ∀ kv ∈ c.selections, ∃ m, s.matchups.find? (fun m => m.id == kv.1) = some m
      ∧ m.winning_option = some kv.2) :
    ∀ p ∈ (newPicks c g).map (joinPick s), legWins p = true := by
  intro p hp
  obtain ⟨r, hr, rfl⟩ := List.mem_map.1 hp
  obtain ⟨kv, hkv, rfl⟩ := List.mem_map.1 hr
  obtain ⟨m, hm, hw⟩ := hdec kv ((mem_objEntries _ _).1 hkv)
  simp [legWins, joinPick, hm, hw]

/-- C20, counterexample: the user with 5 tokens who submits the three-leg
sample ticket at wager 2 is left with 3 tokens, not 1, and has 5 tokens, not 3,
after the winning claim. -/
theorem scenario_balances_counterexample :
    sampleClient.selections.length = 3
    ∧ sampleClient.wagerAmount = 2
    ∧ tokensOf sampleServer "u1" = some 5
    ∧ tokensOf openTicket.server "u1" = some 3
    ∧ tokensOf openTicket.server "u1" ≠ some 1
    ∧ firstClaim.outcome = .won
    ∧ tokensOf firstClaim.server "u1" = some 5
    ∧ tokensOf firstClaim.server "u1" ≠ some 3 := by
  decide

/-- C20, as amended: a user with 5 tokens who submits a three-leg ticket at
wager 2 is debited 2 tokens and has 3 left (with wager 6 the submission is
rejected for insufficient tokens).  After all three questions are decided the
way the ticket picked them, the claim is a win asking for 800 points and 2
tokens, and once `claim_parlay` accepts it the balance is 5 tokens and the
points are 800 higher. -/
theorem scenario_three_legs_wager_two (now : Nat) (ie ue : Bool) (c : Client) (s : Server)
    (prof : Profile) (ms : List Matchup)
    (hlen : c.selections.length = 3) (hW : c.wagerAmount = 2)
    (hprof : c.userProfile = some prof) (htok : prof.beta_tokens = 5)
    (hrow : s.profiles.filter (fun q => q.id == c.session_user_id) = [prof])
    (hfresh : ∀ r ∈ s.user_picks, r.user_id = c.session_user_id →
      r.entry_group ≠ toString now)
    (hdec : ∀ kv ∈ c.selections, ∃ m, ms.find? (fun m => m.id == kv.1) = some m
      ∧ m.winning_option = some kv.2) :
    (submitTicket now ie ue { c with wagerAmount := 6 } s).outcome = .insufficientTokens
    ∧ (submitTicket now false false c s).outcome = .submitted
    ∧ tokensOf (submitTicket now false false c s).server c.session_user_id = some 3
    ∧ (claimRequest
        (fetchHistory (submitTicket now false false c s).client
          { (submitTicket now false false c s).server with matchups := ms })
        (toString now)).p_points_won = 800
    ∧ (claimRequest
        (fetchHistory (submitTicket now false false c s).client
          { (submitTicket now false false c s).server with matchups := ms })
        (toString now)).p_tokens_return = 2
    ∧ (claimTicket false
        (fetchHistory (submitTicket now false false c s).client
          { (submitTicket now false false c s).server with matchups := ms })
        { (submitTicket now false false c s).server with matchups := ms }
        (toString now)).outcome = .won
    ∧ tokensOf (claimTicket false
        (fetchHistory (submitTicket now false false c s).client
          { (submitTicket now false false c s).server with matchups := ms })
        { (submitTicket now false false c s).server with matchups := ms }
        (toString now)).server c.session_user_id = some 5
    ∧ pointsOf (claimTicket false
        (fetchHistory (submitTicket now false false c s).client
          { (submitTicket now false false c s).server with matchups := ms })
        { (submitTicket now false false c s).server with matchups := ms }
        (toString now)).server c.session_user_id = some (prof.points + 800) := by
  have hsel : c.selections ≠ [] := by
    intro h
    simp [h] at hlen
  have hb : c.wagerAmount ≤ prof.beta_tokens := by omega
  obtain ⟨hpicks, hf, huid⟩ :=
    submitted_ticket_history now c s prof ms hsel hprof hrow hb hfresh
  have hout : (submitTicket now false false c s).outcome = .submitted := by
    rw [submitTicket_success now c s prof hsel hprof hb]
  have hrej : (submitTicket now ie ue { c with wagerAmount := 6 } s).outcome
      = .insufficientTokens := by
    have h0 : c.selections.length ≠ 0 := by omega
    simp [submitTicket, h0, hprof, htok]
  have hf3 : ({ (submitTicket now false false c s).server with matchups := ms } :
      Server).profiles.filter (fun q => q.id == c.session_user_id)
      = [{ prof with beta_tokens := prof.beta_tokens - c.wagerAmount }] := hf
  have hwin := legWins_joined_newPick c (toString now)
    { (submitTicket now false false c s).server with matchups := ms } hdec
  have hhead := newPicks_head_wager c (toString now)
    { (submitTicket now false false c s).server with matchups := ms } hsel
  rw [← hpicks] at hwin hhead
  have hlen3 : (ticketPicks
      (fetchHistory (submitTicket now false false c s).client
        { (submitTicket now false false c s).server with matchups := ms })
      (toString now)).length = 3 := by
    rw [hpicks, List.length_map]
    simpa [newPicks, objEntries_length] using hlen
  have htk : tokensOf (submitTicket now false false c s).server c.session_user_id
      = some 3 := by
    rw [tokensOf_of_filter _ _ _ hf, hW, htok]
    rfl
  generalize ({ (submitTicket now false false c s).server with matchups := ms } : Server)
    = S3 at *
  generalize fetchHistory (submitTicket now false false c s).client S3 = C3 at *
  generalize toString now = g at *
  rw [hW] at hhead
  have hpts : (claimRequest C3 g).p_points_won = 800 := by
    rw [claimRequest_win_points C3 g 3 2 (by decide) (by decide) hlen3 hhead hwin]
    norm_num
  have hret : (claimRequest C3 g).p_tokens_return = 2 := by
    simp only [claimRequest, ticketWager, hhead]
    rfl
  have hreq : (claimRequest C3 g).p_user_id = c.session_user_id := huid
  have hf4 : S3.profiles.filter (fun q => q.id == (claimRequest C3 g).p_user_id)
      = [{ prof with beta_tokens := prof.beta_tokens - c.wagerAmount }] := by
    rw [hreq]; exact hf3
  have hcp := claim_parlay_filter S3 (claimRequest C3 g) _ hf4
  rw [hreq, hret, hpts, hW, htok] at hcp
  refine ⟨hrej, hout, htk, hpts, hret, ?_, ?_, ?_⟩
  · simp [claimTicket, all_legWins_of_forall _ hwin]
  · have := tokensOf_of_filter _ _ _ hcp
    simpa [claimTicket] using this
  · have := pointsOf_of_filter _ _ _ hcp
    simpa [claimTicket] using this

/-- Instance of C20 as amended: the sample user, ticket and outcomes. -/
theorem scenario_three_legs_wager_two_witness :
    tokensOf openTicket.server "u1" = some 3
    ∧ (claimRequest readyClient "1000").p_points_won = 800
    ∧ tokensOf firstClaim.server "u1" = some 5
    ∧ pointsOf firstClaim.server "u1" = some (0 + 800) :=
  have h := scenario_three_legs_wager_two 1000 false false sampleClient sampleServer
    ⟨"u1", 5, 0⟩ decidedMatchups (by decide) rfl rfl rfl (by decide) (by decide) (by decide)
  ⟨h.2.2.1, h.2.2.2.1, h.2.2.2.2.2.2.1, h.2.2.2.2.2.2.2⟩

/-! ## Grouping lemmas -/

theorem lookup_isSome_iff {β : Type} (o : List (String × β)) (k : String) :
    (o.lookup k).isSome = true ↔ k ∈ o.map Prod.fst := by
  induction o with
  | nil => simp
  | cons kv rest ih =>
    obtain ⟨k2, v⟩ := kv
    by_cases h : k = k2
    · subst h
      simp [List.lookup_cons]
    · have h2 : (k == k2) = false := by simpa using h
      simp [List.lookup_cons, h2, ih, h]

theorem groupByEntry_snoc (l : List Pick) (p : Pick) :
    groupByEntry (l ++ [p]) = groupStep (groupByEntry l) p := by
  simp [groupByEntry, List.foldl_append]

/-- The groups are keyed without repetition, each group is the non-empty list of
the picks carrying its key, in their input order, and every pick has its
group. -/
theorem groupByEntry_spec (l : List Pick) :
    ((groupByEntry l).map Prod.fst).Nodup
    ∧ (∀ kv ∈ groupByEntry l,
        kv.2 = l.filter (fun p => p.entry_group == kv.1) ∧ kv.2 ≠ [])
    ∧ (∀ p ∈ l, p.entry_group ∈ (groupByEntry l).map Prod.fst) := by
  induction l using List.reverseRecOn with
  | nil => simp [groupByEntry]
  | append_singleton l p ih =>
    obtain ⟨hnd, hgrp, hmem⟩ := ih
    rw [groupByEntry_snoc]
    unfold groupStep
    by_cases hk : ((groupByEntry l).lookup p.entry_group).isSome = true
    · have hkeys : ((groupByEntry l).map
          (fun kv => if kv.1 == p.entry_group then (kv.1, kv.2 ++ [p]) else kv)).map Prod.fst
          = (groupByEntry l).map Prod.fst := by
        rw [List.map_map]
        apply List.map_congr_left
        intro kv _
        by_cases h : kv.1 = p.entry_group <;> simp [h]
      simp only [hk, if_true]
      refine ⟨by rw [hkeys]; exact hnd, ?_, ?_⟩
      · intro kv2 hkv2
        obtain ⟨kv, hkv, rfl⟩ := List.mem_map.1 hkv2
        obtain ⟨h1, h2⟩ := hgrp kv hkv
        by_cases h : kv.1 = p.entry_group
        · have h1b : l.filter (fun q => q.entry_group == p.entry_group) = kv.2 := by
            rw [← h]
            exact h1.symm
          simp [h, List.filter_append, h1b]
        · have h3 : ¬ p.entry_group = kv.1 := fun e => h e.symm
          simp [h, h3, List.filter_append, ← h1, h2]
      · intro q hq
        rw [hkeys]
        rcases List.mem_append.1 hq with hq | hq
        · exact hmem q hq
        · have : q = p := by simpa using hq
          subst this
          exact (lookup_isSome_iff _ _).1 hk
    · have hnot : p.entry_group ∉ (groupByEntry l).map Prod.fst := fun h =>
        hk ((lookup_isSome_iff _ _).2 h)
      have hfil : l.filter (fun q => q.entry_group == p.entry_group) = [] := by
        rw [List.filter_eq_nil_iff]
        intro q hq hqe
        apply hnot
        have : q.entry_group = p.entry_group := by simpa using hqe
        rw [← this]
        exact hmem q hq
      simp only [hk, if_false, Bool.false_eq_true]
      refine ⟨?_, ?_, ?_⟩
      · rw [List.map_append, List.nodup_append]
        refine ⟨hnd, by simp, ?_⟩
        intro a ha hb
        have : a = p.entry_group := by simpa using hb
        exact hnot (this ▸ ha)
      · intro kv hkv
        rcases List.mem_append.1 hkv with hkv | hkv
        · obtain ⟨h1, h2⟩ := hgrp kv hkv
          have hne : ¬ p.entry_group = kv.1 := by
            intro e
            apply hnot
            rw [e]
            exact List.mem_map_of_mem _ hkv
          simp [List.filter_append, ← h1, h2, hne]
        · have : kv = (p.entry_group, [p]) := by simpa using hkv
          subst this
          simp [List.filter_append, hfil]
      · intro q hq
        rw [List.map_append]
        rcases List.mem_append.1 hq with hq | hq
        · exact List.mem_append_left _ (hmem q hq)
        · have : q = p := by simpa using hq
          subst this
          simp

theorem mem_groupByEntry_iff (l : List Pick) (kv : String × List Pick) :
    kv ∈ groupByEntry l ↔
      kv.2 = l.filter (fun p => p.entry_group == kv.1) ∧ kv.2 ≠ [] := by
  obtain ⟨_, hgrp, hmem⟩ := groupByEntry_spec l
  constructor
  · exact hgrp kv
  · rintro ⟨h1, h2⟩
    obtain ⟨p, hp⟩ := List.exists_mem_of_ne_nil _ h2
    rw [h1] at hp
    obtain ⟨hpl, hpe⟩ := List.mem_filter.1 hp
    have hpe2 : p.entry_group = kv.1 := by simpa using hpe
    have hk := hmem p hpl
    rw [hpe2] at hk
    obtain ⟨kv2, hkv2, hfst⟩ := List.mem_map.1 hk
    have h3 := (hgrp kv2 hkv2).1
    have : kv2 = kv := by
      apply Prod.ext hfst
      rw [h3, h1, hfst]
    exact this ▸ hkv2

/-! ## Claim all -/

theorem claimAll_fold_attempts (rpcError : String → Bool) (c : Client)
    (l : List (String × List Pick)) (acc : ClaimAllResult) :
    (l.foldl (claimAllStep rpcError c) acc).attempts
      = acc.attempts ++ l.map (fun kv => claimRequest c kv.1) := by
  induction l generalizing acc with
  | nil => simp
  | cons kv rest ih =>
    rw [List.foldl_cons, ih]
    simp [claimAllStep]

theorem claimAllTickets_attempts (rpcError : String → Bool) (c : Client) (s : Server) :
    (claimAllTickets rpcError c s).attempts
      = (readyGroups c).map (fun kv => claimRequest c kv.1) := by
  unfold claimAllTickets
  split
  · rename_i h
    rw [List.length_eq_zero.1 h]
    rfl
  · rw [claimAll_fold_attempts]
    rfl

theorem readyGroups_keys_nodup (c : Client) : ((readyGroups c).map Prod.fst).Nodup := by
  have h1 : ((objEntries (groupByEntry c.activeEntries)).map Prod.fst).Nodup :=
    ((objEntries_perm _).map Prod.fst).nodup_iff.2 (groupByEntry_spec c.activeEntries).1
  exact h1.sublist (List.Sublist.map _ (List.filter_sublist _))

theorem mem_readyGroups_iff (c : Client) (kv : String × List Pick) :
    kv ∈ readyGroups c ↔
      (kv.2 = ticketPicks c kv.1 ∧ kv.2 ≠ [])
      ∧ firstClaimed kv.2 = false ∧ allSettled kv.2 = true := by
  unfold readyGroups
  rw [List.mem_filter, mem_objEntries, mem_groupByEntry_iff]
  simp [ticketPicks]

/-- On a history whose picks all carry their matchup record, `claimAllTickets`
sends one `claim_parlay` call, the one `claimTicket` makes, for each group of
the history whose first pick is unclaimed and whose legs all have a decided
question, and for no other group; the calls made are the same when every call
fails. -/
theorem claimAllTickets_attempts_with_records (rpcError : String → Bool) (c : Client) (s : Server)
    (hrec : ∀ p ∈ c.activeEntries, p.matchups ≠ none) :
    ((claimAllTickets rpcError c s).attempts.map (fun r => r.p_entry_group)).Nodup
    ∧ (∀ g, g ∈ (claimAllTickets rpcError c s).attempts.map (fun r => r.p_entry_group) ↔
        (∃ first, (ticketPicks c g).head? = some first ∧ first.is_claimed = false)
        ∧ ∀ p ∈ ticketPicks c g, ∃ m, p.matchups = some m ∧ m.winning_option ≠ none)
    ∧ (∀ r ∈ (claimAllTickets rpcError c s).attempts, r = claimRequest c r.p_entry_group)
    ∧ (claimAllTickets rpcError c s).attempts
        = (claimAllTickets (fun _ => true) c s).attempts := by
  have hkeys : (claimAllTickets rpcError c s).attempts.map (fun r => r.p_entry_group)
      = (readyGroups c).map Prod.fst := by
    rw [claimAllTickets_attempts, List.map_map]
    rfl
  refine ⟨?_, ?_, ?_, ?_⟩
  · rw [hkeys]
    exact readyGroups_keys_nodup c
  · intro g
    rw [hkeys]
    constructor
    · intro hg
      obtain ⟨kv, hkv, rfl⟩ := List.mem_map.1 hg
      obtain ⟨⟨h1, h2⟩, h3, h4⟩ := (mem_readyGroups_iff c kv).1 hkv
      rw [h1] at h2 h3 h4
      constructor
      · cases hh : (ticketPicks c kv.1).head? with
        | none => exact absurd (List.head?_eq_none_iff.1 hh) h2
        | some first =>
          refine ⟨first, rfl, ?_⟩
          simpa [firstClaimed, hh] using h3
      · intro p hp
        have hs : legSettled p = true := by
          have := List.all_eq_true.1 h4 p hp
          exact this
        have hpa : p ∈ c.activeEntries := (List.mem_filter.1 hp).1
        cases hm : p.matchups with
        | none => exact absurd hm (hrec p hpa)
        | some m =>
          refine ⟨m, rfl, ?_⟩
          intro hw
          simp [legSettled, hm, hw] at hs
    · rintro ⟨⟨first, hh, hf⟩, hdec⟩
      apply List.mem_map.2
      refine ⟨(g, ticketPicks c g), ?_, rfl⟩
      rw [mem_readyGroups_iff]
      refine ⟨⟨rfl, ?_⟩, ?_, ?_⟩
      · intro he
        have he2 : ticketPicks c g = [] := he
        rw [he2] at hh
        cases hh
      · simp [firstClaimed, hh, hf]
      · apply List.all_eq_true.2
        intro p hp
        obtain ⟨m, hm, hw⟩ := hdec p hp
        cases hw2 : m.winning_option with
        | none => exact absurd hw2 hw
        | some o => simp [legSettled, hm, hw2]
  · intro r hr
    rw [claimAllTickets_attempts] at hr
    obtain ⟨kv, _, rfl⟩ := List.mem_map.1 hr
    rfl
  · rw [claimAllTickets_attempts, claimAllTickets_attempts]

/-- Of the four sample tickets, whose picks all carry their matchup record, only
`5000` and `8000` are attempted, whether or not the calls fail. -/
theorem claimAllTickets_attempts_sample :
    ("5000" ∈ (claimAllTickets (fun _ => true) historyClient sampleServer).attempts.map
        (fun r => r.p_entry_group))
    ∧ ("8000" ∈ (claimAllTickets (fun _ => true) historyClient sampleServer).attempts.map
        (fun r => r.p_entry_group))
    ∧ ("6000" ∉ (claimAllTickets (fun _ => true) historyClient sampleServer).attempts.map
        (fun r => r.p_entry_group))
    ∧ ("7000" ∉ (claimAllTickets (fun _ => true) historyClient sampleServer).attempts.map
        (fun r => r.p_entry_group)) :=
  have h := (claimAllTickets_attempts_with_records (fun _ => true) historyClient sampleServer
    (by decide)).2.1
  ⟨(h "5000").2 (by decide), (h "8000").2 (by decide),
    fun hm => absurd ((h "6000").1 hm).2 (by decide),
    fun hm => absurd ((h "7000").1 hm).1 (by decide)⟩

/-! ## Leaderboard lemmas -/

theorem objSet_fresh {α : Type} (o : List (String × α)) (k : String) (v : α)
    (h : k ∉ o.map Prod.fst) : objSet o k v = o ++ [(k, v)] := by
  have h2 : ¬ (o.lookup k).isSome = true := fun e => h ((lookup_isSome_iff o k).1 e)
  simp [objSet, h2]

theorem initScores_snoc (l : List RosterRow) (p : RosterRow) :
    initScores (l ++ [p])
      = objSet (initScores l) p.id
          { username := displayName p.username, points := 0, id := p.id } := by
  simp [initScores, List.foldl_append]

/-- With distinct ids, `userScores` starts with one zero entry per profile, in
roster order. -/
theorem initScores_of_nodup (profiles : List RosterRow)
    (hnd : (profiles.map (fun p => p.id)).Nodup) :
    initScores profiles
      = profiles.map (fun p =>
          (p.id, { username := displayName p.username, points := 0, id := p.id })) := by
  induction profiles using List.reverseRecOn with
  | nil => rfl
  | append_singleton l p ih =>
    rw [List.map_append, List.nodup_append] at hnd
    obtain ⟨h1, _, h3⟩ := hnd
    rw [initScores_snoc, ih h1, objSet_fresh]
    · simp
    · intro hmem
      rw [List.map_map] at hmem
      exact h3 hmem (by simp)

theorem scoreGroup_shape (scores : List (String × Score)) (group : List Pick) :
    (scoreGroup scores group).map (fun kv => (kv.1, kv.2.id))
      = scores.map (fun kv => (kv.1, kv.2.id)) := by
  unfold scoreGroup
  split
  · rfl
  · rename_i first _
    split
    · rw [List.map_map]
      apply List.map_congr_left
      intro kv _
      by_cases h : kv.1 = first.user_id <;> simp [h]
    · rfl

theorem foldl_scoreGroup_shape (groups : List (List Pick)) (scores : List (String × Score)) :
    (groups.foldl scoreGroup scores).map (fun kv => (kv.1, kv.2.id))
      = scores.map (fun kv => (kv.1, kv.2.id)) := by
  induction groups generalizing scores with
  | nil => rfl
  | cons g rest ih => rw [List.foldl_cons, ih, scoreGroup_shape]

theorem scoredUsers_shape (profiles : List RosterRow) (picks : List Pick)
    (hnd : (profiles.map (fun p => p.id)).Nodup) :
    (scoredUsers profiles picks).map (fun kv => (kv.1, kv.2.id))
      = profiles.map (fun p => (p.id, p.id)) := by
  unfold scoredUsers
  rw [foldl_scoreGroup_shape, initScores_of_nodup profiles hnd, List.map_map]
  rfl

theorem scoreGroup_keeps_zero (uid : String) (scores : List (String × Score))
    (group : List Pick)
    (hhead : ∀ first, group.head? = some first → first.user_id ≠ uid)
    (hz : ∀ kv ∈ scores, kv.1 = uid → kv.2.points = 0) :
    ∀ kv ∈ scoreGroup scores group, kv.1 = uid → kv.2.points = 0 := by
  unfold scoreGroup
  split
  · exact hz
  · rename_i first hf
    split
    · intro kv2 hkv2 hk
      obtain ⟨kv, hkv, rfl⟩ := List.mem_map.1 hkv2
      by_cases h : kv.1 = first.user_id
      · have hk2 : kv.1 = uid := by simpa [h] using hk
        exact absurd (h.symm.trans hk2) (hhead first hf)
      · have hk2 : kv.1 = uid := by simpa [h] using hk
        simpa [h] using hz kv hkv hk2
    · exact hz

theorem foldl_scoreGroup_keeps_zero (uid : String) (groups : List (List Pick))
    (scores : List (String × Score))
    (hhead : ∀ g ∈ groups, ∀ first, g.head? = some first → first.user_id ≠ uid)
    (hz : ∀ kv ∈ scores, kv.1 = uid → kv.2.points = 0) :
    ∀ kv ∈ groups.foldl scoreGroup scores, kv.1 = uid → kv.2.points = 0 := by
  induction groups generalizing scores with
  | nil => exact hz
  | cons g rest ih =>
    rw [List.foldl_cons]
    apply ih
    · intro g2 hg2
      exact hhead g2 (List.mem_cons_of_mem _ hg2)
    · exact scoreGroup_keeps_zero uid scores g (hhead g (List.mem_cons_self _ _)) hz

theorem group_head_mem (picks : List Pick) (g : List Pick)
    (hg : g ∈ (objEntries (groupByEntry picks)).map (fun kv => kv.2)) :
    ∀ first, g.head? = some first → first ∈ picks := by
  obtain ⟨kv, hkv, rfl⟩ := List.mem_map.1 hg
  rw [mem_objEntries, mem_groupByEntry_iff] at hkv
  intro first hf
  have hm : first ∈ kv.2 := List.mem_of_mem_head? hf
  rw [hkv.1] at hm
  exact (List.mem_filter.1 hm).1

theorem fetchLeaderboard_perm (profiles : List RosterRow) (picks : List Pick) :
    (fetchLeaderboard profiles picks).Perm
      ((scoredUsers profiles picks).map (fun kv => kv.2)) := by
  unfold fetchLeaderboard
  exact (List.perm_insertionSort _ _).trans ((objEntries_perm _).map _)

theorem objEntries_of_no_index {α : Type} (o : List (String × α))
    (h : ∀ kv ∈ o, isArrayIndex kv.1 = false) : objEntries o = o := by
  have h1 : o.filter (fun kv => isArrayIndex kv.1) = [] := by
    rw [List.filter_eq_nil_iff]
    intro kv hkv
    simp [h kv hkv]
  have h2 : o.filter (fun kv => !isArrayIndex kv.1) = o := by
    rw [List.filter_eq_self]
    intro kv hkv
    simp [h kv hkv]
  simp [objEntries, h1, h2]

/-- Insertion sort is stable: the elements picked out by a test whose members
are all related to each other keep their order. -/
theorem insertionSort_filter_eq {α : Type} (r : α → α → Prop) [DecidableRel r]
    (t : α → Bool) (l : List α) (ht : ∀ a b, t a = true → t b = true → r a b) :
    (l.insertionSort r).filter t = l.filter t := by
  have hpw : (l.filter t).Pairwise r := by
    rw [List.pairwise_iff_forall_sublist]
    intro a b hab
    have ha : a ∈ l.filter t := hab.subset (by simp)
    have hb : b ∈ l.filter t := hab.subset (by simp)
    exact ht a b (List.mem_filter.1 ha).2 (List.mem_filter.1 hb).2
  have hsub : List.Sublist (l.filter t) (l.insertionSort r) :=
    List.sublist_insertionSort hpw (List.filter_sublist l)
  have hsub2 : List.Sublist (l.filter t) ((l.insertionSort r).filter t) := by
    have := hsub.filter t
    rwa [List.filter_filter, show (fun a => t a && t a) = t from by funext a; simp] at this
  have hlen : ((l.insertionSort r).filter t).length = (l.filter t).length :=
    ((List.perm_insertionSort r l).filter t).length_eq
  exact (hsub2.eq_of_length hlen.symm).symm

/-! ## Leaderboard -/

/-- C17: for a roster with distinct ids and any list of claimed picks, the
leaderboard has exactly one entry per roster user, and a user none of whose picks
is among the claimed picks of the window appears in it with 0 points. -/
theorem leaderboard_one_entry_per_user (profiles : List RosterRow) (picks : List Pick)
    (hnd : (profiles.map (fun p => p.id)).Nodup) :
    ((fetchLeaderboard profiles picks).map (fun e => e.id)).Perm
        (profiles.map (fun p => p.id))
    ∧ ((fetchLeaderboard profiles picks).map (fun e => e.id)).Nodup
    ∧ ∀ u ∈ profiles, (∀ p ∈ picks, p.user_id ≠ u.id) →
        ∃ e ∈ fetchLeaderboard profiles picks, e.id = u.id ∧ e.points = 0 := by
  have hshape := scoredUsers_shape profiles picks hnd
  have hids : (scoredUsers profiles picks).map (fun kv => kv.2.id)
      = profiles.map (fun p => p.id) := by
    have := congrArg (List.map Prod.snd) hshape
    simpa [List.map_map, Function.comp] using this
  have hperm : ((fetchLeaderboard profiles picks).map (fun e => e.id)).Perm
      (profiles.map (fun p => p.id)) := by
    have := (fetchLeaderboard_perm profiles picks).map (fun e => e.id)
    rw [List.map_map] at this
    rw [← hids]
    exact this
  refine ⟨hperm, hperm.nodup_iff.2 hnd, ?_⟩
  intro u hu hno
  have hmem : u.id ∈ (fetchLeaderboard profiles picks).map (fun e => e.id) :=
    hperm.mem_iff.2 (List.mem_map_of_mem _ hu)
  obtain ⟨e, he, hid⟩ := List.mem_map.1 hmem
  refine ⟨e, he, hid, ?_⟩
  have he2 : e ∈ (scoredUsers profiles picks).map (fun kv => kv.2) :=
    (fetchLeaderboard_perm profiles picks).mem_iff.1 he
  obtain ⟨kv, hkv, rfl⟩ := List.mem_map.1 he2
  have hkey : kv.1 = kv.2.id := by
    have h1 : (kv.1, kv.2.id) ∈ (scoredUsers profiles picks).map (fun kv => (kv.1, kv.2.id)) :=
      List.mem_map_of_mem _ hkv
    rw [hshape] at h1
    obtain ⟨p, _, hp⟩ := List.mem_map.1 h1
    have h2 := congrArg Prod.fst hp
    have h3 := congrArg Prod.snd hp
    simp only at h2 h3
    rw [← h2, ← h3]
  refine foldl_scoreGroup_keeps_zero u.id _ (initScores profiles) ?_ ?_ kv hkv
    (hkey.trans hid)
  · intro g hg first hf
    exact hno first (group_head_mem picks g hg first hf)
  · intro kv2 hkv2 _
    rw [initScores_of_nodup profiles hnd] at hkv2
    obtain ⟨p, _, rfl⟩ := List.mem_map.1 hkv2
    rfl

/-- Instance of C17: the sample roster of three users and the two sample
tickets; `ub` has no pick and appears with 0 points. -/
theorem leaderboard_one_entry_per_user_witness :
    ((fetchLeaderboard sampleRoster samplePicks).map (fun e => e.id)).Nodup
    ∧ ∃ e ∈ fetchLeaderboard sampleRoster samplePicks, e.id = "ub" ∧ e.points = 0 :=
  have h := leaderboard_one_entry_per_user sampleRoster samplePicks (by decide)
  ⟨h.2.1, h.2.2 ⟨"ub", none⟩ (by decide) (by decide)⟩

/-- C16: the leaderboard is in non-increasing order of points; and when the
roster ids are distinct and none of them is an array index (ids are UUIDs), the
entries with the same points appear in the order their users have in the
roster. -/
theorem leaderboard_sorted_stable (profiles : List RosterRow) (picks : List Pick) :
    (fetchLeaderboard profiles picks).Pairwise (fun a b => a.points ≥ b.points)
    ∧ ((profiles.map (fun p => p.id)).Nodup →
        (∀ p ∈ profiles, isArrayIndex p.id = false) →
        ∀ v : ℚ,
          (((fetchLeaderboard profiles picks).filter (fun e => decide (e.points = v))).map
            (fun e => e.id)).Sublist (profiles.map (fun p => p.id))) := by
  constructor
  · haveI : IsTotal Score (fun a b => a.points ≥ b.points) :=
      ⟨fun a b => le_total b.points a.points⟩
    haveI : IsTrans Score (fun a b => a.points ≥ b.points) :=
      ⟨fun a b c hab hbc => le_trans hbc hab⟩
    exact List.sorted_insertionSort (fun a b : Score => a.points ≥ b.points) _
  · intro hnd hidx v
    have hshape := scoredUsers_shape profiles picks hnd
    have hids : (scoredUsers profiles picks).map (fun kv => kv.2.id)
        = profiles.map (fun p => p.id) := by
      have := congrArg (List.map Prod.snd) hshape
      simpa [List.map_map, Function.comp] using this
    have hno : ∀ kv ∈ scoredUsers profiles picks, isArrayIndex kv.1 = false := by
      intro kv hkv
      have h1 : (kv.1, kv.2.id) ∈
          (scoredUsers profiles picks).map (fun kv => (kv.1, kv.2.id)) :=
        List.mem_map_of_mem _ hkv
      rw [hshape] at h1
      obtain ⟨p, hp, hpe⟩ := List.mem_map.1 h1
      have h2 := congrArg Prod.fst hpe
      simp only at h2
      rw [← h2]
      exact hidx p hp
    have hlb : (fetchLeaderboard profiles picks).filter (fun e => decide (e.points = v))
        = ((scoredUsers profiles picks).map (fun kv => kv.2)).filter
            (fun e => decide (e.points = v)) := by
      unfold fetchLeaderboard
      rw [objEntries_of_no_index _ hno]
      apply insertionSort_filter_eq
      intro a b ha hb
      have ha2 : a.points = v := by simpa using ha
      have hb2 : b.points = v := by simpa using hb
      show a.points ≥ b.points
      rw [ha2, hb2]
    rw [hlb, ← hids]
    have : (scoredUsers profiles picks).map (fun kv => kv.2.id)
        = ((scoredUsers profiles picks).map (fun kv => kv.2)).map (fun e => e.id) := by
      rw [List.map_map]
      rfl
    rw [this]
    exact (List.filter_sublist _).map _

/-- Instance of C16: in the sample roster `ub` comes before `ua`, and with 0
points each they come in that order on the leaderboard. -/
theorem leaderboard_sorted_stable_witness :
    (((fetchLeaderboard sampleRoster samplePicks).filter
        (fun e => decide (e.points = 0))).map (fun e => e.id)).Sublist
      (sampleRoster.map (fun p => p.id)) :=
  (leaderboard_sorted_stable sampleRoster samplePicks).2 (by decide) (by decide) 0

/-- C15, the code at the failing input: the only pick of ticket `3000` has no
matchup record, yet the ticket passes the all-settled test, is among the ready
groups, and `claimAllTickets` sends a claim for it. -/
theorem allSettled_missing_record :
    (ticketPicks orphanClient "3000").map (fun p => p.matchups) = [none]
    ∧ allSettled (ticketPicks orphanClient "3000") = true
    ∧ (readyGroups orphanClient).map Prod.fst = ["3000"]
    ∧ (claimAllTickets (fun _ => false) orphanClient sampleServer).attempts.map
        (fun r => r.p_entry_group) = ["3000"] := by
  decide

/-- C18, the code at the failing input: the sample ticket of `u1` is cancelled
while open; once its three questions are decided in its favour the leaderboard
gives `u1` the 800 points of the voided ticket. -/
theorem leaderboard_counts_voided :
    voidedTicket.outcome = .unlocked
    ∧ (leaderboardPicks (fun _ => true) voidedDecidedServer).map
        (fun p => (p.entry_group, p.is_claimed))
        = [("1000", true), ("1000", true), ("1000", true), ("900", true)]
    ∧ (fetchLeaderboard (rosterOf voidedDecidedServer)
        (leaderboardPicks (fun _ => true) voidedDecidedServer)).map
        (fun e => (e.id, e.points)) = [("u1", 800), ("u2", 0)] := by
  refine ⟨by decide, by decide, ?_⟩
  decide!

/-- C19, the code at the failing input: `ua` and `ub` each submit a one-leg
ticket at wager 1 in the same millisecond, both win and both claim, each claim
asking for 100 points; the leaderboard treats the two tickets as one two-leg
ticket of `ub` and shows 200 points for `ub` and 0 for `ua`. -/
theorem leaderboard_merges_colliding_tickets :
    twinSubmitA.outcome = .submitted
    ∧ twinSubmitB.outcome = .submitted
    ∧ twinClaimA.outcome = .won
    ∧ twinClaimB.outcome = .won
    ∧ (leaderboardPicks (fun _ => true) twinClaimB.server).map
        (fun p => (p.user_id, p.entry_group, p.is_claimed))
        = [("ub", "1700000000000", true), ("ua", "1700000000000", true)]
    ∧ (claimRequest (fetchHistory twinSubmitA.client twinDecided)
        "1700000000000").p_points_won = 100
    ∧ (claimRequest (fetchHistory twinSubmitB.client twinClaimA.server)
        "1700000000000").p_points_won = 100
    ∧ (fetchLeaderboard (rosterOf twinClaimB.server)
        (leaderboardPicks (fun _ => true) twinClaimB.server)).map
        (fun e => (e.id, e.points)) = [("ub", 200), ("ua", 0)] := by
  refine ⟨by decide, by decide, by decide, by decide, by decide, ?_, ?_, ?_⟩
  · decide!
  · decide!
  · decide!

/-! ## Selecting legs -/

/-- C21: `handleSelection` leaves the client as it was when the matchup is not
among the loaded matchups or when its lock time is at or before `currentTime`;
hence an entry that appears in the selections is the one just selected, for a
loaded matchup whose lock time is still ahead of `currentTime`. -/
theorem handleSelection_locked (c : Client) (matchupId option : String) :
    (c.matchups.find? (fun m => m.id == matchupId) = none →
      handleSelection c matchupId option = c)
    ∧ (∀ m, c.matchups.find? (fun m => m.id == matchupId) = some m →
        m.lock_time ≤ c.currentTime → handleSelection c matchupId option = c)
    ∧ (∀ kv ∈ (handleSelection c matchupId option).selections, kv ∉ c.selections →
        kv = (matchupId, option)
        ∧ ∃ m, c.matchups.find? (fun m => m.id == matchupId) = some m
          ∧ c.currentTime < m.lock_time) := by
  refine ⟨?_, ?_, ?_⟩
  · intro h
    simp [handleSelection, h]
  · intro m h hl
    simp [handleSelection, h, hl]
  · intro kv hkv hnew
    unfold handleSelection at hkv
    cases hf : c.matchups.find? (fun m => m.id == matchupId) with
    | none =>
      rw [hf] at hkv
      exact absurd hkv hnew
    | some m =>
      rw [hf] at hkv
      by_cases hl : c.currentTime ≥ m.lock_time
      · simp only [hl, if_true] at hkv
        exact absurd hkv hnew
      · simp only [hl, if_false] at hkv
        refine ⟨?_, m, rfl, by omega⟩
        split at hkv
        · exact absurd (List.mem_filter.1 hkv).1 hnew
        · split at hkv
          · obtain ⟨kv0, hkv0, hkv1⟩ := List.mem_map.1 hkv
            by_cases hk : kv0.1 = matchupId
            · simp only [hk, beq_self_eq_true, if_true] at hkv1
              exact hkv1.symm
            · have hk2 : (kv0.1 == matchupId) = false := by simpa using hk
              simp only [hk2, Bool.false_eq_true, if_false] at hkv1
              exact absurd (hkv1 ▸ hkv0) hnew
          · rcases List.mem_append.1 hkv with h | h
            · exact absurd h hnew
            · simpa using h

/-- Instance of C21: at time 50 option A of `m1` (lock 100) is added to the empty
slip; at time 200 a selection of `m2` changes nothing. -/
theorem handleSelection_locked_witness :
    (∃ m, idleClient.matchups.find? (fun m => m.id == "m1") = some m
      ∧ idleClient.currentTime < m.lock_time)
    ∧ handleSelection lateClient "m2" "B" = lateClient :=
  ⟨((handleSelection_locked idleClient "m1" "A").2.2 ("m1", "A") (by decide)
      (by decide)).2,
    (handleSelection_locked lateClient "m2" "B").2.1 ⟨"m2", 100, none⟩ (by decide)
      (by decide)⟩

/-! ## Slip invariants -/

theorem slipOf_fetchProfile (c : Client) (s : Server) : slipOf (fetchProfile c s) = slipOf c := by
  unfold fetchProfile
  split <;> rfl

theorem slipOf_refresh (c : Client) (s s2 : Server) :
    slipOf (fetchHistory (fetchProfile c s) s2) = slipOf c :=
  slipOf_fetchProfile c s

theorem slipOf_claimTicket (e : Bool) (c : Client) (s : Server) (g : String) :
    slipOf (claimTicket e c s g).client = slipOf c := by
  cases e
  · simp only [claimTicket, Bool.false_eq_true, if_false]
    exact slipOf_refresh c _ _
  · simp [claimTicket]

theorem slipOf_cancelTicket (a b d : Bool) (c : Client) (s : Server) (g : String) :
    slipOf (cancelTicket a b d c s g).client = slipOf c := by
  cases hp : c.userProfile <;> cases a <;> cases b <;> cases d <;>
    simp [cancelTicket, hp, slipOf_refresh]

theorem slipOf_claimAll_fold (rpcError : String → Bool) (c : Client)
    (l : List (String × List Pick)) (acc : ClaimAllResult)
    (h : slipOf acc.client = slipOf c) :
    slipOf (l.foldl (claimAllStep rpcError c) acc).client = slipOf c := by
  induction l generalizing acc with
  | nil => exact h
  | cons kv rest ih =>
    rw [List.foldl_cons]
    apply ih
    unfold claimAllStep
    by_cases he : rpcError kv.1 = true
    · simp [he, h]
    · simp only [he, Bool.false_eq_true, if_false]
      exact slipOf_claimTicket _ c _ _

theorem slipOf_claimAllTickets (rpcError : String → Bool) (c : Client) (s : Server) :
    slipOf (claimAllTickets rpcError c s).client = slipOf c := by
  unfold claimAllTickets
  split
  · rfl
  · exact slipOf_claimAll_fold rpcError c _ _ rfl

theorem handleSelection_keys_nodup (c : Client) (k o : String)
    (h : (c.selections.map Prod.fst).Nodup) :
    ((handleSelection c k o).selections.map Prod.fst).Nodup := by
  unfold handleSelection
  split
  · exact h
  · split
    · exact h
    · simp only
      split
      · exact h.sublist ((List.filter_sublist _).map _)
      · split
        · have hk : (c.selections.map
              (fun kv => if kv.1 == k then (kv.1, o) else kv)).map Prod.fst
              = c.selections.map Prod.fst := by
            rw [List.map_map]
            apply List.map_congr_left
            intro kv _
            by_cases hkv : kv.1 = k <;> simp [hkv]
          rw [hk]
          exact h
        · rename_i hsome
          have hnot : k ∉ c.selections.map Prod.fst := fun hm =>
            hsome ((lookup_isSome_iff _ _).2 hm)
          rw [List.map_append, List.nodup_append]
          refine ⟨h, by simp, ?_⟩
          intro a ha hb
          have : a = k := by simpa using hb
          exact hnot (this ▸ ha)

theorem handleSelection_wager (c : Client) (k o : String) :
    (handleSelection c k o).wagerAmount = c.wagerAmount := by
  unfold handleSelection
  split
  · rfl
  · split <;> rfl

theorem pressWager_selections (c : Client) (w : Int) :
    (pressWager c w).selections = c.selections := by
  unfold pressWager
  split
  · split
    · rfl
    · split <;> rfl
  · rfl

theorem pressWager_range (c : Client) (w : Int)
    (h : 1 ≤ c.wagerAmount ∧ c.wagerAmount ≤ 5) :
    1 ≤ (pressWager c w).wagerAmount ∧ (pressWager c w).wagerAmount ≤ 5 := by
  unfold pressWager
  split
  · rename_i hw
    split
    · exact h
    · split
      · exact h
      · have hmem : w ∈ wagerChoices := by simpa using hw
        simp only [wagerChoices, List.mem_cons, List.mem_singleton, List.not_mem_nil,
          or_false] at hmem
        simp only
        omega
  · exact h

theorem submitTicket_slip (now : Nat) (ie ue : Bool) (c : Client) (s : Server) :
    slipOf (submitTicket now ie ue c s).client = slipOf c
    ∨ slipOf (submitTicket now ie ue c s).client = ([], 1) := by
  cases hp : c.userProfile with
  | none =>
    by_cases h0 : c.selections.length = 0 <;> simp [submitTicket, hp, h0]
  | some prof =>
    by_cases h0 : c.selections.length = 0 <;>
      by_cases h1 : prof.beta_tokens < c.wagerAmount <;>
      cases ie <;> cases ue <;>
      simp [submitTicket, hp, h0, h1, slipOf_refresh]
    right
    rfl

/-- No action makes the slip select a question twice. -/
theorem act_keys_nodup (a : Action) (st : Client × Server)
    (h : (st.1.selections.map Prod.fst).Nodup) :
    ((act a st).1.selections.map Prod.fst).Nodup := by
  have keep : ∀ c2 : Client, slipOf c2 = slipOf st.1 →
      (c2.selections.map Prod.fst).Nodup := by
    intro c2 h2
    have e1 : c2.selections = st.1.selections := congrArg Prod.fst h2
    rw [e1]
    exact h
  cases a with
  | select k o => exact handleSelection_keys_nodup st.1 k o h
  | wager w =>
    show ((pressWager st.1 w).selections.map Prod.fst).Nodup
    rw [pressWager_selections]
    exact h
  | tick t => exact h
  | setMatchups ms => exact h
  | refresh => exact keep _ (slipOf_refresh _ _ _)
  | submit now ie ue =>
    rcases submitTicket_slip now ie ue st.1 st.2 with h2 | h2
    · exact keep _ h2
    · have e1 : (submitTicket now ie ue st.1 st.2).client.selections = [] :=
        congrArg Prod.fst h2
      show ((submitTicket now ie ue st.1 st.2).client.selections.map Prod.fst).Nodup
      rw [e1]
      simp
  | claim e g => exact keep _ (slipOf_claimTicket e st.1 st.2 g)
  | claimAll e => exact keep _ (slipOf_claimAllTickets e st.1 st.2)
  | cancel a b d g => exact keep _ (slipOf_cancelTicket a b d st.1 st.2 g)
  | backend s => exact h

/-- No action takes the wager out of the range 1..5. -/
theorem act_wager_range (a : Action) (st : Client × Server)
    (h : 1 ≤ st.1.wagerAmount ∧ st.1.wagerAmount ≤ 5) :
    1 ≤ (act a st).1.wagerAmount ∧ (act a st).1.wagerAmount ≤ 5 := by
  have keep : ∀ c2 : Client, slipOf c2 = slipOf st.1 →
      1 ≤ c2.wagerAmount ∧ c2.wagerAmount ≤ 5 := by
    intro c2 h2
    have e2 : c2.wagerAmount = st.1.wagerAmount := congrArg Prod.snd h2
    rw [e2]
    exact h
  cases a with
  | select k o =>
    show 1 ≤ (handleSelection st.1 k o).wagerAmount ∧ (handleSelection st.1 k o).wagerAmount ≤ 5
    rw [handleSelection_wager]
    exact h
  | wager w => exact pressWager_range st.1 w h
  | tick t => exact h
  | setMatchups ms => exact h
  | refresh => exact keep _ (slipOf_refresh _ _ _)
  | submit now ie ue =>
    rcases submitTicket_slip now ie ue st.1 st.2 with h2 | h2
    · exact keep _ h2
    · have e2 : (submitTicket now ie ue st.1 st.2).client.wagerAmount = 1 :=
        congrArg Prod.snd h2
      show (1 ≤ (submitTicket now ie ue st.1 st.2).client.wagerAmount
        ∧ (submitTicket now ie ue st.1 st.2).client.wagerAmount ≤ 5)
      rw [e2]
      decide
  | claim e g => exact keep _ (slipOf_claimTicket e st.1 st.2 g)
  | claimAll e => exact keep _ (slipOf_claimAllTickets e st.1 st.2)
  | cancel a b d g => exact keep _ (slipOf_cancelTicket a b d st.1 st.2 g)
  | backend s => exact h

theorem run_keys_nodup (actions : List Action) (st : Client × Server)
    (h : (st.1.selections.map Prod.fst).Nodup) :
    ((run actions st).1.selections.map Prod.fst).Nodup := by
  induction actions generalizing st with
  | nil => exact h
  | cons a rest ih =>
    show ((run rest (act a st)).1.selections.map Prod.fst).Nodup
    exact ih (act a st) (act_keys_nodup a st h)

theorem run_wager_range (actions : List Action) (st : Client × Server)
    (h : 1 ≤ st.1.wagerAmount ∧ st.1.wagerAmount ≤ 5) :
    1 ≤ (run actions st).1.wagerAmount ∧ (run actions st).1.wagerAmount ≤ 5 := by
  induction actions generalizing st with
  | nil => exact h
  | cons a rest ih =>
    show 1 ≤ (run rest (act a st)).1.wagerAmount ∧ (run rest (act a st)).1.wagerAmount ≤ 5
    exact ih (act a st) (act_wager_range a st h)

/-- What `submitTicket` adds to `user_picks`: nothing, or the rows built from a
non-empty slip when the insert was applied. -/
theorem submitTicket_stored (now : Nat) (ie ue : Bool) (c : Client) (s : Server) :
    ((submitTicket now ie ue c s).server.user_picks = s.user_picks
      ∧ (submitTicket now ie ue c s).outcome ≠ .submitted
      ∧ (submitTicket now ie ue c s).outcome ≠ .deductionFailed)
    ∨ ((submitTicket now ie ue c s).server.user_picks
        = newPicks c (toString now) ++ s.user_picks
      ∧ c.selections ≠ []
      ∧ ((submitTicket now ie ue c s).outcome = .submitted
        ∨ (submitTicket now ie ue c s).outcome = .deductionFailed)) := by
  by_cases h0 : c.selections.length = 0
  · left
    simp [submitTicket, h0]
  · have hne : c.selections ≠ [] := fun e => h0 (by simp [e])
    cases hp : c.userProfile with
    | none =>
      left
      simp [submitTicket, hp, h0]
    | some prof =>
      by_cases h1 : prof.beta_tokens < c.wagerAmount
      · left
        simp [submitTicket, hp, h0, h1]
      · cases ie with
        | true =>
          left
          simp [submitTicket, hp, h0, h1]
        | false =>
          right
          cases ue <;> simp [submitTicket, hp, h0, h1, hne, setTokens]

/-! ## Tickets stored by a session -/

/-- C22: starting from an empty slip, after any session the picks `submitTicket`
adds to `user_picks` have pairwise distinct question ids, and whenever it stores
a ticket (the insert was applied) the ticket has at least one leg. -/
theorem stored_ticket_legs_distinct (actions : List Action) (c0 : Client) (s0 : Server)
    (h0 : c0.selections = []) (now : Nat) (ie ue : Bool) :
    ∃ picks : List PickRow,
      (submitTicket now ie ue (run actions (c0, s0)).1
          (run actions (c0, s0)).2).server.user_picks
        = picks ++ (run actions (c0, s0)).2.user_picks
      ∧ (picks.map (fun r => r.matchup_id)).Nodup
      ∧ (∀ r ∈ picks, r.entry_group = toString now)
      ∧ ((submitTicket now ie ue (run actions (c0, s0)).1
            (run actions (c0, s0)).2).outcome = .submitted
          ∨ (submitTicket now ie ue (run actions (c0, s0)).1
            (run actions (c0, s0)).2).outcome = .deductionFailed → 1 ≤ picks.length)
      ∧ ((submitTicket now ie ue (run actions (c0, s0)).1
            (run actions (c0, s0)).2).outcome ≠ .submitted →
          (submitTicket now ie ue (run actions (c0, s0)).1
            (run actions (c0, s0)).2).outcome ≠ .deductionFailed → picks = []) := by
  have hnd : ((run actions (c0, s0)).1.selections.map Prod.fst).Nodup :=
    run_keys_nodup actions (c0, s0) (by simp [h0])
  generalize run actions (c0, s0) = st at *
  rcases submitTicket_stored now ie ue st.1 st.2 with ⟨h1, h2, h3⟩ | ⟨h1, h2, h3⟩
  · refine ⟨[], by simpa using h1, by simp, by simp, ?_, fun _ _ => rfl⟩
    intro h
    rcases h with h | h
    · exact absurd h h2
    · exact absurd h h3
  · refine ⟨newPicks st.1 (toString now), h1, ?_, ?_, ?_, ?_⟩
    · have : (newPicks st.1 (toString now)).map (fun r => r.matchup_id)
          = (objEntries st.1.selections).map Prod.fst := by
        simp only [newPicks, List.map_map]
        rfl
      rw [this]
      exact ((objEntries_perm _).map Prod.fst).nodup_iff.2 hnd
    · intro r hr
      exact (newPicks_fields st.1 (toString now) r hr).2
    · intro _
      have : 0 < st.1.selections.length := List.length_pos.2 h2
      simpa [newPicks, objEntries_length] using this
    · intro h4 h5
      rcases h3 with h3 | h3
      · exact absurd h3 h4
      · exact absurd h3 h5

/-- Instance of C22: after the sample session, in which `m1` was selected twice,
the submission at time 1000 stores the two legs `m1` and `m2`. -/
theorem stored_ticket_legs_distinct_witness :
    ∃ picks : List PickRow,
      (submitTicket 1000 false false (run sampleSession (initialClient "u1" 50, sampleServer)).1
          (run sampleSession (initialClient "u1" 50, sampleServer)).2).server.user_picks
        = picks ++ (run sampleSession (initialClient "u1" 50, sampleServer)).2.user_picks
      ∧ (picks.map (fun r => r.matchup_id)).Nodup
      ∧ 1 ≤ picks.length := by
  obtain ⟨picks, h1, h2, _, h4, _⟩ :=
    stored_ticket_legs_distinct sampleSession (initialClient "u1" 50) sampleServer rfl
      1000 false false
  exact ⟨picks, h1, h2, h4 (Or.inl (by decide))⟩

/-- C24: the wager starts at 1, stays within 1..5 through any session, and is 1
again after a successful submission; so every pick `submitTicket` adds to
`user_picks` carries a wager between 1 and 5. -/
theorem wager_always_in_range (actions : List Action) (c0 : Client) (s0 : Server)
    (h0 : c0.wagerAmount = 1) (now : Nat) (ie ue : Bool) :
    (∀ uid t, (initialClient uid t).wagerAmount = 1)
    ∧ 1 ≤ (run actions (c0, s0)).1.wagerAmount
    ∧ (run actions (c0, s0)).1.wagerAmount ≤ 5
    ∧ ((submitTicket now ie ue (run actions (c0, s0)).1
          (run actions (c0, s0)).2).outcome = .submitted →
        (submitTicket now ie ue (run actions (c0, s0)).1
          (run actions (c0, s0)).2).client.wagerAmount = 1)
    ∧ ∃ picks : List PickRow,
        (submitTicket now ie ue (run actions (c0, s0)).1
            (run actions (c0, s0)).2).server.user_picks
          = picks ++ (run actions (c0, s0)).2.user_picks
        ∧ ∀ r ∈ picks, ∃ w, r.wager_amount = some w ∧ 1 ≤ w ∧ w ≤ 5 := by
  have hr : 1 ≤ (run actions (c0, s0)).1.wagerAmount
      ∧ (run actions (c0, s0)).1.wagerAmount ≤ 5 :=
    run_wager_range actions (c0, s0) (by simp [h0])
  generalize run actions (c0, s0) = st at *
  refine ⟨fun _ _ => rfl, hr.1, hr.2, ?_, ?_⟩
  · intro hok
    obtain ⟨hsel, rfl, rfl, prof, hprof, hle⟩ :=
      submitTicket_submitted_inv now ie ue st.1 st.2 hok
    rw [submitTicket_success now st.1 st.2 prof hsel hprof hle]
    have h := slipOf_refresh { st.1 with selections := [], wagerAmount := 1 }
      (setTokens { st.2 with user_picks := newPicks st.1 (toString now) ++ st.2.user_picks }
        st.1.session_user_id (prof.beta_tokens - st.1.wagerAmount))
      (setTokens { st.2 with user_picks := newPicks st.1 (toString now) ++ st.2.user_picks }
        st.1.session_user_id (prof.beta_tokens - st.1.wagerAmount))
    exact congrArg Prod.snd h
  · rcases submitTicket_stored now ie ue st.1 st.2 with ⟨h1, _, _⟩ | ⟨h1, _, _⟩
    · exact ⟨[], by simpa using h1, by simp⟩
    · refine ⟨newPicks st.1 (toString now), h1, ?_⟩
      intro r hr2
      obtain ⟨kv, _, rfl⟩ := List.mem_map.1 hr2
      exact ⟨st.1.wagerAmount, rfl, hr.1, hr.2⟩

/-- Instance of C24: after the sample session the wager is 2, and it is 1 again
after the submission at time 1000. -/
theorem wager_always_in_range_witness :
    (run sampleSession (initialClient "u1" 50, sampleServer)).1.wagerAmount = 2
    ∧ (submitTicket 1000 false false (run sampleSession (initialClient "u1" 50, sampleServer)).1
        (run sampleSession (initialClient "u1" 50, sampleServer)).2).client.wagerAmount = 1 :=
  ⟨by decide,
    (wager_always_in_range sampleSession (initialClient "u1" 50) sampleServer rfl
      1000 false false).2.2.2.1 (by decide)⟩

/-! ## Ticket identifiers -/

/-- C23, the code at the failing input: `ua` and `ub` submit in the same
millisecond; both submissions succeed and the two tickets carry the same
`entry_group`. -/
theorem colliding_entry_groups :
    twinSubmitA.outcome = .submitted
    ∧ twinSubmitB.outcome = .submitted
    ∧ twinSubmitB.server.user_picks.map (fun r => (r.user_id, r.entry_group))
        = [("ub", "1700000000000"), ("ua", "1700000000000")] := by
  decide

/-! ## Overlapping calls on one ticket -/

theorem voidRow_idem (g : String) (row : PickRow) : voidRow g (voidRow g row) = voidRow g row := by
  unfold voidRow
  by_cases h : row.entry_group = g <;> simp [h]

theorem applyCancelWrite_after (c : Client) (g : String) (prof : Profile) (s : Server)
    (m r : Bool) (w : CancelWrite) :
    applyCancelWrite c g prof (afterCancelWrites c g prof s m r) w
      = afterCancelWrites c g prof s (m || decide (w = .mark)) (r || decide (w = .refund)) := by
  cases w <;> cases m <;> cases r <;>
    simp [applyCancelWrite, afterCancelWrites, markClaimed, setTokens, List.map_map,
      voidRow_idem, Function.comp_def] <;>
    intro a _ <;>
    by_cases h : a.id = c.session_user_id <;>
    simp [h]

theorem applyCancelWrites_after (c : Client) (g : String) (prof : Profile) (s : Server)
    (ws : List CancelWrite) (m r : Bool) :
    ws.foldl (applyCancelWrite c g prof) (afterCancelWrites c g prof s m r)
      = afterCancelWrites c g prof s (m || ws.contains .mark) (r || ws.contains .refund) := by
  induction ws generalizing m r with
  | nil => simp
  | cons w rest ih =>
    rw [List.foldl_cons, applyCancelWrite_after, ih]
    cases w <;> cases m <;> cases r <;> simp

/-- C25, counterexample: the sample ticket is ready on the backend and two
`cancelTicket` calls are made from the same client state; both report success,
none fails, and the balance is 5. -/
theorem overlapping_cancels_counterexample :
    (cancelTicket true false false openTicket.client decidedServer "1000").outcome = .unlocked
    ∧ (cancelTicket true false false openTicket.client
        (cancelTicket true false false openTicket.client decidedServer "1000").server
        "1000").outcome = .unlocked
    ∧ tokensOf (cancelTicket true false false openTicket.client
        (cancelTicket true false false openTicket.client decidedServer "1000").server
        "1000").server "u1" = some 5 := by
  decide

/-- C25, as amended: the client has no mutual exclusion and no terminal-state
error.  Every confirmed `cancelTicket` call whose updates are applied reports
success whatever the backend holds; and when any number of such calls, started
on the same client state, overlap, then in whatever order their writes reach the
backend the tables end up as after a single cancel, so the wager is credited
once. -/
theorem overlapping_cancels (c : Client) (s : Server) (g : String) (prof : Profile)
    (ws : List CancelWrite) (hprof : c.userProfile = some prof)
    (hm : CancelWrite.mark ∈ ws) (hr : CancelWrite.refund ∈ ws) :
    (∀ s2, (cancelTicket true false false c s2 g).outcome = .unlocked)
    ∧ applyCancelWrites c g prof ws s = (cancelTicket true false false c s g).server := by
  constructor
  · intro s2
    simp [cancelTicket, hprof]
  · have h0 : s = afterCancelWrites c g prof s false false := rfl
    have hm2 : ws.contains CancelWrite.mark = true := by simpa using hm
    have hr2 : ws.contains CancelWrite.refund = true := by simpa using hr
    unfold applyCancelWrites
    rw [show ws.foldl (applyCancelWrite c g prof) s
        = ws.foldl (applyCancelWrite c g prof) (afterCancelWrites c g prof s false false)
        from rfl, applyCancelWrites_after, hm2, hr2]
    simp [cancelTicket, hprof, afterCancelWrites, setTokens, markClaimed]

/-- Instance of C25 as amended: two overlapping cancels of the sample ticket
whose writes arrive as mark, mark, refund, refund. -/
theorem overlapping_cancels_witness :
    applyCancelWrites openTicket.client "1000" ⟨"u1", 3, 0⟩
        [.mark, .mark, .refund, .refund] decidedServer
      = (cancelTicket true false false openTicket.client decidedServer "1000").server :=
  (overlapping_cancels openTicket.client decidedServer "1000" ⟨"u1", 3, 0⟩
    [.mark, .mark, .refund, .refund] (by decide) (by decide) (by decide)).2

/-! ## Wins, settled tickets and groups -/

theorem legSettled_of_legWins (p : Pick) (hsel : p.selected_option ≠ none)
    (hw : legWins p = true) : legSettled p = true := by
  unfold legWins at hw
  unfold legSettled
  cases hm : p.matchups with
  | none => simp [hm] at hw
  | some m =>
    simp only [hm] at hw ⊢
    have : m.winning_option = p.selected_option := by simpa using hw
    rw [this]
    cases hs : p.selected_option with
    | none => exact absurd hs hsel
    | some o => rfl

/-- C26: for a ticket whose selected options are each A or B, all legs correct
implies all legs settled; and if some leg's question is undecided the ticket is
not a win: `claimTicket` asks for 0 points for it and the leaderboard step leaves
every total as it was. -/
theorem win_implies_settled (picks : List Pick)
    (hAB : ∀ p ∈ picks, p.selected_option = some "A" ∨ p.selected_option = some "B") :
    (picks.all legWins = true → allSettled picks = true)
    ∧ ((∃ p ∈ picks, ∃ m, p.matchups = some m ∧ m.winning_option = none) →
        picks.all legWins = false
        ∧ (∀ c g, ticketPicks c g = picks → (claimRequest c g).p_points_won = 0)
        ∧ (∀ scores, scoreGroup scores picks = scores)) := by
  have hsel : ∀ p ∈ picks, p.selected_option ≠ none := by
    intro p hp h
    rcases hAB p hp with h2 | h2 <;> rw [h] at h2 <;> cases h2
  constructor
  · intro hall
    unfold allSettled
    rw [List.all_eq_true] at hall ⊢
    intro p hp
    exact legSettled_of_legWins p (hsel p hp) (hall p hp)
  · rintro ⟨p, hp, m, hm, hw⟩
    have hl : legWins p = false := by
      cases hs : p.selected_option with
      | none => exact absurd hs (hsel p hp)
      | some o => simp [legWins, hm, hw, hs]
    have hall : picks.all legWins = false := all_legWins_false_of_exists _ ⟨p, hp, hl⟩
    refine ⟨hall, ?_, ?_⟩
    · intro c g hc
      simp [claimRequest, hc, hall]
    · intro scores
      unfold scoreGroup
      split
      · rfl
      · simp [hall]

/-- Instance of C26: the open sample ticket, three legs on A or B, all
undecided, is claimed for 0 points. -/
theorem win_implies_settled_witness :
    (claimRequest openTicket.client "1000").p_points_won = 0 :=
  ((win_implies_settled (ticketPicks openTicket.client "1000") (by decide)).2
    (by decide)).2.1 openTicket.client "1000" rfl

/-- C27: grouping by `entry_group` partitions the picks.  The keys are distinct;
every group is non-empty, so it has a first pick, and is the list of the picks
with its key in their input order; every pick is in the group keyed by its
`entry_group` and in no other; and `Object.entries` lists exactly these
groups. -/
theorem grouping_partitions (l : List Pick) :
    ((groupByEntry l).map Prod.fst).Nodup
    ∧ (∀ kv ∈ groupByEntry l,
        kv.2 ≠ [] ∧ (∃ first, kv.2.head? = some first)
        ∧ kv.2 = l.filter (fun p => p.entry_group == kv.1))
    ∧ (∀ p ∈ l, ∃ kv ∈ groupByEntry l,
        kv.1 = p.entry_group ∧ p ∈ kv.2
        ∧ ∀ kv2 ∈ groupByEntry l, p ∈ kv2.2 → kv2 = kv)
    ∧ (∀ kv, kv ∈ objEntries (groupByEntry l) ↔ kv ∈ groupByEntry l) := by
  obtain ⟨hnd, hgrp, hmem⟩ := groupByEntry_spec l
  refine ⟨hnd, ?_, ?_, fun kv => mem_objEntries _ kv⟩
  · intro kv hkv
    obtain ⟨h1, h2⟩ := hgrp kv hkv
    refine ⟨h2, ?_, h1⟩
    cases hh : kv.2.head? with
    | none => exact absurd (List.head?_eq_none_iff.1 hh) h2
    | some first => exact ⟨first, rfl⟩
  · intro p hp
    obtain ⟨kv, hkv, hfst⟩ := List.mem_map.1 (hmem p hp)
    have hin : p ∈ kv.2 := by
      rw [(hgrp kv hkv).1]
      exact List.mem_filter.2 ⟨hp, by simp [hfst]⟩
    refine ⟨kv, hkv, hfst, hin, ?_⟩
    intro kv2 hkv2 hp2
    rw [(hgrp kv2 hkv2).1] at hp2
    have hk2 : p.entry_group = kv2.1 := by simpa using (List.mem_filter.1 hp2).2
    apply Prod.ext
    · rw [← hk2, hfst]
    · rw [(hgrp kv2 hkv2).1, (hgrp kv hkv).1, ← hk2, hfst]

/-! ## One payout -/

/-- The payout formula at its four places, each applied to the picks of one
ticket: for a slip of `L ≥ 1` legs at wager `W` in 1..5 and the ticket it
becomes once stored, settled and correct on every leg, the potential win shown
on the slip, the points `claimTicket` asks for, the amount `scoreGroup` adds to
the owner for a group that consists of these picks, and the payout the profile
modal records are the same number, `100 * 2^(L-1) * W`.  Which picks
`fetchLeaderboard` puts into one group is not part of this statement. -/
theorem payout_formula_agrees (c c2 : Client) (g : String) (picks : List Pick)
    (L : Nat) (W : Int) (hL : 1 ≤ L) (hW1 : 1 ≤ W) (hW5 : W ≤ 5)
    (hsel : c.selections.length = L) (hw : c.wagerAmount = W)
    (hlen : picks.length = L)
    (hwager : picks.head?.bind (fun p => p.wager_amount) = some W)
    (hset : allSettled picks = true)
    (hlegs : ∀ p ∈ picks, legWins p = true)
    (hc2 : ticketPicks c2 g = picks) :
    potentialWin c = 100 * 2 ^ (L - 1) * (W : ℚ)
    ∧ (claimRequest c2 g).p_points_won = potentialWin c
    ∧ (∀ scores first, picks.head? = some first →
        (scores.lookup first.user_id).isSome = true →
        scoreGroup scores picks = scores.map (fun kv =>
          if kv.1 == first.user_id then
            (kv.1, { kv.2 with points := kv.2.points + potentialWin c })
          else kv))
    ∧ (∃ t, modalTicket g picks = some t ∧ t.payout = potentialWin c ∧ t.won = true) := by
  have hW0 : W ≠ 0 := by omega
  have hall : picks.all legWins = true := all_legWins_of_forall _ hlegs
  have hwg : ticketWager picks = W := by
    rw [ticketWager, hwager]
    exact orOne_some_of_ne_zero W hW0
  have hpot : potentialWin c = basePoints L * (W : ℚ) := by
    have hpos : L > 0 := by omega
    simp only [potentialWin, hsel, hw, hpos, if_true, basePoints]
  have hbase : basePoints L * (W : ℚ) = 100 * 2 ^ (L - 1) * (W : ℚ) := by
    rw [basePoints_of_pos L hL]
  refine ⟨hpot.trans hbase, ?_, ?_, ?_⟩
  · rw [hpot, hbase]
    exact claimRequest_win_points c2 g L W hL hW0 (by rw [hc2]; exact hlen)
      (by rw [hc2]; exact hwager) (by rw [hc2]; exact hlegs)
  · intro scores first hf hl
    simp only [scoreGroup, hf, hall, hl, Bool.and_self, if_true, hwg, hlen, hpot]
  · refine ⟨{ group := g, picks := picks,
                payout := basePoints picks.length * (ticketWager picks : ℚ),
                won := picks.all legWins }, ?_, ?_, hall⟩
    · simp only [modalTicket, hset, if_true]
    · simp only [hwg, hlen, hpot]

/-- The sample slip of three legs at wager 2 and the sample ticket once
decided: 800 points on the slip, in the claim and in the profile modal. -/
theorem payout_formula_agrees_sample :
    potentialWin sampleClient = 100 * 2 ^ (3 - 1) * ((2 : Int) : ℚ)
    ∧ (claimRequest readyClient "1000").p_points_won = potentialWin sampleClient
    ∧ ∃ t, modalTicket "1000" (ticketPicks readyClient "1000") = some t
        ∧ t.payout = potentialWin sampleClient ∧ t.won = true :=
  have h := payout_formula_agrees sampleClient readyClient "1000"
    (ticketPicks readyClient "1000") 3 2 (by decide) (by decide) (by decide) (by decide)
    rfl (by decide) (by decide) (by decide) (by decide) rfl
  ⟨h.1, h.2.1, h.2.2.2⟩

/-! ## A refresh that fails or is late -/

theorem fetchProfile_fields (c : Client) (s : Server) :
    ∃ up, fetchProfile c s = { c with userProfile := up } := by
  unfold fetchProfile
  split
  · exact ⟨_, rfl⟩
  · exact ⟨c.userProfile, rfl⟩

/-- The state `staleClient` describes is the one the two reads of the source
leave when each may report an error. -/
theorem staleClient_refreshes (profileError historyError : Bool) (c c1 : Client) (s : Server)
    (hp : c1.userProfile = c.userProfile) (hh : c1.activeEntries = c.activeEntries) :
    staleClient profileError historyError c (fetchHistory (fetchProfile c1 s) s)
      = tryFetchHistory historyError (tryFetchProfile profileError c1 s) s := by
  obtain ⟨up, hup⟩ := fetchProfile_fields c1 s
  cases profileError <;> cases historyError <;>
    simp [staleClient, tryFetchProfile, tryFetchHistory, fetchHistory, hup, ← hp, ← hh]

/-- After a successful `submitTicket`, `staleClient` is the client left by
`setSelections({})`, `setWagerAmount(1)` and the two reads of lines 294-295,
each of which may report an error. -/
theorem staleClient_submitTicket (now : Nat) (profileError historyError : Bool) (c : Client)
    (s : Server) (prof : Profile)
    (hsel : c.selections ≠ []) (hprof : c.userProfile = some prof)
    (hb : c.wagerAmount ≤ prof.beta_tokens) :
    staleClient profileError historyError c (submitTicket now false false c s).client
      = tryFetchHistory historyError
          (tryFetchProfile profileError { c with selections := [], wagerAmount := 1 }
            (submitTicket now false false c s).server)
          (submitTicket now false false c s).server := by
  rw [submitTicket_success now c s prof hsel hprof hb]
  exact staleClient_refreshes _ _ _ _ _ rfl rfl

theorem staleClient_session (profileError historyError : Bool) (before after : Client) :
    (staleClient profileError historyError before after).session_user_id
      = after.session_user_id := rfl

theorem fetchHistory_staleClient (historyError : Bool) (before after : Client) (s : Server) :
    fetchHistory (staleClient false historyError before after) s = fetchHistory after s := by
  cases historyError <;> rfl

/-- The request of `claimTicket` after a read of the history depends on the
client only through the signed-in user. -/
theorem claimRequest_fetchHistory_congr (a b : Client) (s : Server) (g : String)
    (h : a.session_user_id = b.session_user_id) :
    claimRequest (fetchHistory a s) g = claimRequest (fetchHistory b s) g := by
  have he : (fetchHistory a s).activeEntries = (fetchHistory b s).activeEntries := by
    simp [fetchHistory, h]
  simp only [claimRequest, ticketPicks, he, fetchHistory_session, h]

theorem claimTicket_server (c : Client) (s : Server) (g : String) :
    (claimTicket false c s g).server = claim_parlay s (claimRequest c g) := by
  simp [claimTicket]

/-- C3, counterexample: `u1` has 5 tokens and submits the sample ticket at wager
2, which leaves 3 tokens stored.  The history refresh arrives, the profile
refresh reports an error, so the cached profile still says 5 tokens.  One
`cancelTicket` on the new ticket then writes 5 + 2: the balance is 7, not 5. -/
theorem stale_profile_cancel_counterexample :
    tokensOf sampleServer "u1" = some 5
    ∧ openTicket.outcome = .submitted
    ∧ tokensOf openTicket.server "u1" = some 3
    ∧ staleProfileClient.userProfile = some ⟨"u1", 5, 0⟩
    ∧ (ticketPicks staleProfileClient "1000").length = 3
    ∧ ((ticketPicks staleProfileClient "1000").map (fun p => p.is_claimed)).all (fun b => !b)
        = true
    ∧ (cancelTicket true false false staleProfileClient openTicket.server "1000").outcome
        = .unlocked
    ∧ tokensOf (cancelTicket true false false staleProfileClient openTicket.server
        "1000").server "u1" = some 7 := by
  decide

/-- C3, as amended: with a wager `W` in 1..5 and a stored token balance `b ≥ W`
that the client has cached, `submitTicket` debits `W`.  Settling the new ticket
once by `claimTicket` asks for exactly `W` tokens, and the accepted call leaves
the balance `b` again, whether or not the profile refresh started by
`submitTicket` has arrived.  Settling it once by `cancelTicket` leaves the
balance `b` again when that profile refresh has arrived, so that the cached
balance is the stored one.  In both cases the client has read its history again
after the questions were decided (`ms` is the matchups table at that time), and
the ticket identifier is assumed not to be in use by an older pick of the
caller.  The balance after a claim is that left by the accepted `claim_parlay`
call. -/
theorem token_conservation_in_step (now : Nat) (c : Client) (s : Server) (prof : Profile)
    (W : Int) (ms : List Matchup) (profileError historyError : Bool)
    (hsel : c.selections ≠ [])
    (hW : c.wagerAmount = W) (hW1 : 1 ≤ W) (hW5 : W ≤ 5)
    (hprof : c.userProfile = some prof)
    (hrow : s.profiles.filter (fun q => q.id == c.session_user_id) = [prof])
    (hb : W ≤ prof.beta_tokens)
    (hfresh : ∀ r ∈ s.user_picks, r.user_id = c.session_user_id →
      r.entry_group ≠ toString now) :
    tokensOf s c.session_user_id = some prof.beta_tokens
    ∧ (submitTicket now false false c s).outcome = .submitted
    ∧ tokensOf (submitTicket now false false c s).server c.session_user_id
        = some (prof.beta_tokens - W)
    ∧ (claimRequest
        (fetchHistory
          (staleClient profileError historyError c (submitTicket now false false c s).client)
          { (submitTicket now false false c s).server with matchups := ms })
        (toString now)).p_tokens_return = W
    ∧ tokensOf (claimTicket false
        (fetchHistory
          (staleClient profileError historyError c (submitTicket now false false c s).client)
          { (submitTicket now false false c s).server with matchups := ms })
        { (submitTicket now false false c s).server with matchups := ms }
        (toString now)).server c.session_user_id = some prof.beta_tokens
    ∧ (profileError = false →
        (cancelTicket true false false
          (fetchHistory
            (staleClient profileError historyError c (submitTicket now false false c s).client)
            { (submitTicket now false false c s).server with matchups := ms })
          { (submitTicket now false false c s).server with matchups := ms }
          (toString now)).outcome = .unlocked
        ∧ tokensOf (cancelTicket true false false
          (fetchHistory
            (staleClient profileError historyError c (submitTicket now false false c s).client)
            { (submitTicket now false false c s).server with matchups := ms })
          { (submitTicket now false false c s).server with matchups := ms }
          (toString now)).server c.session_user_id = some prof.beta_tokens) := by
  obtain ⟨h1, h2, h3, h4, h5, h6, h7⟩ :=
    settle_after_refresh now c s prof W ms hsel hW hW1 hW5 hprof hrow hb hfresh
  have hreq := claimRequest_fetchHistory_congr
    (staleClient profileError historyError c (submitTicket now false false c s).client)
    (submitTicket now false false c s).client
    { (submitTicket now false false c s).server with matchups := ms } (toString now)
    (staleClient_session _ _ _ _)
  refine ⟨h1, h2, h3, ?_, ?_, ?_⟩
  · rw [hreq]
    exact h6
  · rw [claimTicket_server, hreq, ← claimTicket_server]
    exact h7
  · intro hpe
    subst hpe
    rw [fetchHistory_staleClient]
    exact ⟨h4, h5⟩

/-- Instance of C3 as amended: user `u1` with 5 tokens submits at wager 2 at
time 1000 and the questions are decided; with both refreshes arrived the
balance is 5 again after a claim and after a cancel. -/
theorem token_conservation_in_step_witness :
    tokensOf (claimTicket false readyClient decidedServer (toString 1000)).server "u1" = some 5
    ∧ tokensOf (cancelTicket true false false readyClient decidedServer
        (toString 1000)).server "u1" = some 5 :=
  have h := token_conservation_in_step 1000 sampleClient sampleServer ⟨"u1", 5, 0⟩ 2
    decidedMatchups false false
    (by decide) rfl (by decide) (by decide) rfl (by decide) (by decide) (by decide)
  ⟨h.2.2.2.2.1, (h.2.2.2.2.2 rfl).2⟩

/-! ## Claims on a ticket that is not ready, or not the caller's -/

/-- The guard in front of `claimTicket`: a group for which the claim is offered,
or which `claimAllTickets` attempts, is unclaimed in the cached history and has
no pick whose matchup record is present and undecided. -/
theorem readyGroups_no_undecided_record (c : Client) (kv : String × List Pick)
    (hkv : kv ∈ readyGroups c) :
    firstClaimed (ticketPicks c kv.1) = false
    ∧ ∀ p ∈ ticketPicks c kv.1, ∀ m, p.matchups = some m → m.winning_option ≠ none := by
  obtain ⟨⟨h1, _⟩, h3, h4⟩ := (mem_readyGroups_iff c kv).1 hkv
  rw [h1] at h3 h4
  refine ⟨h3, ?_⟩
  intro p hp m hm hw
  unfold allSettled at h4
  have := List.all_eq_true.1 h4 p hp
  simp [legSettled, hm, hw] at this

/-- C12, the code at the failing input: the only pick of the unclaimed ticket
`3000` references a matchup that the backend does not hold, so none of its
questions is decided.  The ticket is among the groups for which the claim is
offered, `claimTicket` asks for 1 token and 0 points, and once the call is
accepted it reports the ticket lost, the pick is marked claimed and the
balance goes from 4 to 5. -/
theorem claim_missing_record_settles :
    (fetchHistory orphanClient orphanServer).activeEntries = orphanClient.activeEntries
    ∧ (ticketPicks orphanClient "3000").map
        (fun p => p.matchups.bind (fun m => m.winning_option)) = [none]
    ∧ (readyGroups orphanClient).map Prod.fst = ["3000"]
    ∧ (claimRequest orphanClient "3000").p_tokens_return = 1
    ∧ (claimRequest orphanClient "3000").p_points_won = 0
    ∧ (claimTicket false orphanClient orphanServer "3000").outcome = .lost
    ∧ (claimTicket false orphanClient orphanServer "3000").server.user_picks.map
        (fun r => r.is_claimed) = [true]
    ∧ tokensOf orphanServer "u1" = some 4
    ∧ tokensOf (claimTicket false orphanClient orphanServer "3000").server "u1" = some 5 := by
  refine ⟨by decide, by decide, by decide, by decide, ?_, by decide, by decide, by decide,
    by decide⟩
  decide!

/-- C13, counterexample: `u1` holds the decided sample ticket `1000`; `u2`, who
has stored no pick of that ticket, signs in on the same device and the history
read reports an error.  The claim of `1000` is offered, and `claimTicket` asks
for 2 tokens and 800 points for `u2`. -/
theorem claim_foreign_ticket_counterexample :
    borrowedClient.session_user_id = "u2"
    ∧ decidedServer.user_picks.filter
        (fun r => r.user_id == "u2" && r.entry_group == "1000") = []
    ∧ (readyGroups borrowedClient).map Prod.fst = ["1000"]
    ∧ (claimRequest borrowedClient "1000").p_entry_group = "1000"
    ∧ (claimRequest borrowedClient "1000").p_user_id = "u2"
    ∧ (claimRequest borrowedClient "1000").p_tokens_return = 2
    ∧ (claimRequest borrowedClient "1000").p_points_won = 800 := by
  refine ⟨by decide, by decide, by decide, by decide, by decide, by decide, ?_⟩
  decide!

theorem tryFetchProfile_activeEntries (error : Bool) (c : Client) (s : Server) :
    (tryFetchProfile error c s).activeEntries = c.activeEntries := by
  obtain ⟨up, hup⟩ := fetchProfile_fields c s
  cases error <;> simp [tryFetchProfile, hup]

theorem tryFetchProfile_session (error : Bool) (c : Client) (s : Server) :
    (tryFetchProfile error c s).session_user_id = c.session_user_id := by
  obtain ⟨up, hup⟩ := fetchProfile_fields c s
  cases error <;> simp [tryFetchProfile, hup]

theorem signIn_activeEntries (profileError : Bool) (uid : String) (c : Client) (s : Server) :
    (signIn profileError true uid c s).activeEntries = c.activeEntries := by
  simp [signIn, tryFetchHistory, tryFetchProfile_activeEntries]

theorem signIn_session (profileError : Bool) (uid : String) (c : Client) (s : Server) :
    (signIn profileError true uid c s).session_user_id = uid := by
  simp [signIn, tryFetchHistory, tryFetchProfile_session]

/-- C13, as amended: `claimTicket` makes no check of its own that the ticket
exists or belongs to the caller, and reports no failure of its own: it builds
the request from the picks of the cached history.  The claim is offered, and
`claimAllTickets` calls `claimTicket`, only for groups of that history, so the
picks are never empty, the request names the signed-in user and the tokens it
asks for are never 0.  After a sign-in whose history read reports an error the
cached history is still the previous user's: the same groups are offered and
the same requests are sent, now in the name of the new user.  Refusing a
request is left to `claim_parlay`. -/
theorem claim_request_from_cache (rpcError : String → Bool) (profileError : Bool)
    (c : Client) (s : Server) (uid : String) :
    (∀ kv ∈ readyGroups c, kv.2 = ticketPicks c kv.1 ∧ ticketPicks c kv.1 ≠ [])
    ∧ (∀ r ∈ (claimAllTickets rpcError c s).attempts,
        r = claimRequest c r.p_entry_group
        ∧ ticketPicks c r.p_entry_group ≠ []
        ∧ r.p_user_id = c.session_user_id
        ∧ r.p_tokens_return ≠ 0)
    ∧ readyGroups (signIn profileError true uid c s) = readyGroups c
    ∧ (∀ g, claimRequest (signIn profileError true uid c s) g
        = { claimRequest c g with p_user_id := uid })
    ∧ (∀ g, (claimTicket false c s g).outcome ≠ .claimFailed) := by
  have hgate : ∀ kv ∈ readyGroups c, kv.2 = ticketPicks c kv.1 ∧ ticketPicks c kv.1 ≠ [] := by
    intro kv hkv
    obtain ⟨⟨h1, h2⟩, _⟩ := (mem_readyGroups_iff c kv).1 hkv
    exact ⟨h1, by rw [← h1]; exact h2⟩
  refine ⟨hgate, ?_, ?_, ?_, ?_⟩
  · intro r hr
    rw [claimAllTickets_attempts] at hr
    obtain ⟨kv, hkv, rfl⟩ := List.mem_map.1 hr
    exact ⟨rfl, (hgate kv hkv).2, rfl, orOne_ne_zero _⟩
  · simp [readyGroups, signIn_activeEntries]
  · intro g
    simp [claimRequest, ticketPicks, signIn_activeEntries, signIn_session]
  · intro g
    by_cases hall : (ticketPicks c g).all legWins = true <;> simp [claimTicket, hall]

/-- C14, the code at the failing input: the history holds the four sample
tickets and the unclaimed ticket `3000`, whose only pick has no matchup record,
so that none of its questions is decided.  `claimAllTickets` sends a claim for
`3000` as well as for the two ready tickets `5000` and `8000`, whether or not
the calls fail. -/
theorem claimAll_attempts_missing_record :
    (ticketPicks mixedHistoryClient "3000").map
        (fun p => p.matchups.bind (fun m => m.winning_option)) = [none]
    ∧ (ticketPicks mixedHistoryClient "3000").map (fun p => p.is_claimed) = [false]
    ∧ (claimAllTickets (fun _ => false) mixedHistoryClient sampleServer).attempts.map
        (fun r => r.p_entry_group) = ["3000", "5000", "8000"]
    ∧ (claimAllTickets (fun _ => true) mixedHistoryClient sampleServer).attempts.map
        (fun r => r.p_entry_group) = ["3000", "5000", "8000"] := by
  decide

/-- C28, the code at the failing input: `ua` and `ub` each submit a one-leg
ticket at wager 1 in the same millisecond, both win and both claim.  For the
ticket of `ua` the slip shows 100, `claimTicket` asks for 100 and the profile
modal records a payout of 100, while `fetchLeaderboard` adds nothing for it to
`ua`: it adds 200 to `ub` for the two tickets taken as one. -/
theorem payout_differs_on_collision :
    potentialWin (twinClient "ua") = 100
    ∧ (claimRequest (fetchHistory twinSubmitA.client twinDecided)
        "1700000000000").p_points_won = 100
    ∧ (objEntries (groupByEntry (modalPicks twinClaimB.server "ua"))).map
        (fun kv => (kv.1, kv.2.length, (modalTicket kv.1 kv.2).map (fun t => (t.payout, t.won))))
        = [("1700000000000", 1, some (100, true))]
    ∧ (fetchLeaderboard (rosterOf twinClaimB.server)
        (leaderboardPicks (fun _ => true) twinClaimB.server)).map
        (fun e => (e.id, e.points)) = [("ub", 200), ("ua", 0)] := by
  refine ⟨?_, ?_, ?_, ?_⟩
  · decide!
  · decide!
  · decide!
  · decide!

end Parlay
